import Mathlib

/-!
# Verification of the chat server's history store, streaming bridge and session loop

Shallow embedding of the repository's three modules:

* `db.py`      — SQLAlchemy-backed `DBStore` (append-only message log,
  chronological read, day-grouped cursor pagination);
* `strands_agent.py` — `StrandsAgentEngine.generate_stream` (event stream →
  text deltas, one-shot rebuild-and-retry on AWS credential expiry);
* `server.py`  — the `/ws/chat` receive loop (frame routing, cancellation
  signal lifecycle, stream bridging, persistence of turns).

Machine conventions: Python floats are modelled as exact rationals; a
timezone-aware UTC `datetime` is modelled by its epoch instant; SQLite's
autoincrement primary key is a counter starting at 1.  Fields that no theorem
observes (`ts` values inside frames, conversation titles and creation times)
are omitted; where a definition makes such an omission it is noted in its
doc comment.
-/

/-- A timezone-aware UTC datetime (Python `datetime` with `tzinfo=timezone.utc`),
determined by its epoch instant in seconds.  `datetime.fromtimestamp(t, tz=utc)`
maps the epoch value `t` to this instant; comparison and calendar-date
extraction are functions of the instant. -/
structure UTCDateTime where
  epoch : ℚ
deriving DecidableEq, Repr

/-- `datetime.fromtimestamp(ts, tz=timezone.utc)` (db.py, `DBStore.append`). -/
def datetime_fromtimestamp_utc (t : ℚ) : UTCDateTime := ⟨t⟩

/-- `r.created_at.astimezone(timezone.utc).date()` as a day number: UTC calendar
days are the consecutive 86400-second windows of the epoch line, so the date of
an instant is the floor of its epoch value divided by 86400.  The ISO string
`date().isoformat()` used as the grouping key in `history_grouped_by_day` is in
bijection with this day number. -/
def UTCDateTime.utcDate (d : UTCDateTime) : ℤ := ⌊d.epoch / 86400⌋

/-- ORM row of table `messages` (db.py, class `Message`). -/
structure Message where
  id : ℕ
  conversation_id : String
  role : String
  content : String
  timestamp : ℚ
  created_at : UTCDateTime
deriving DecidableEq, Repr

/-- Pydantic `ChatMessage` (db.py and server.py, kept in sync there). -/
structure ChatMessage where
  id : String
  role : String
  content : String
  timestamp : ℚ
deriving DecidableEq, Repr

/-- Database state: the `conversations` and `messages` tables.  Messages are in
insertion order; `nextId` is the autoincrement counter for `Message.id` (SQLite
assigns 1 to the first row).  Conversation rows are reduced to their ids: no
claim observes titles or conversation creation times. -/
structure DB where
  convs : List String
  messages : List Message
  nextId : ℕ
deriving DecidableEq, Repr

def DB.empty : DB := { convs := [], messages := [], nextId := 1 }

/-- `ORDER BY created_at ASC, id ASC` of `DBStore.history`: `a` comes no later
than `b` in the output. -/
def rowLeAsc (a b : Message) : Prop :=
  a.created_at.epoch < b.created_at.epoch ∨
    (a.created_at.epoch = b.created_at.epoch ∧ a.id ≤ b.id)

/-- `ORDER BY created_at DESC, id DESC` of `DBStore.history_grouped_by_day`:
`a` comes no later than `b` in the output. -/
def rowGeDesc (a b : Message) : Prop :=
  b.created_at.epoch < a.created_at.epoch ∨
    (b.created_at.epoch = a.created_at.epoch ∧ b.id ≤ a.id)

instance : DecidableRel rowLeAsc := fun a b => by
  unfold rowLeAsc; infer_instance

instance : DecidableRel rowGeDesc := fun a b => by
  unfold rowGeDesc; infer_instance

instance : IsTotal Message rowLeAsc where
  total a b := by
    rcases lt_trichotomy a.created_at.epoch b.created_at.epoch with h | h | h
    · exact Or.inl (Or.inl h)
    · rcases Nat.le_total a.id b.id with hid | hid
      · exact Or.inl (Or.inr ⟨h, hid⟩)
      · exact Or.inr (Or.inr ⟨h.symm, hid⟩)
    · exact Or.inr (Or.inl h)

instance : IsTrans Message rowLeAsc where
  trans a b c hab hbc := by
    rcases hab with hab | ⟨hab, hab2⟩ <;> rcases hbc with hbc | ⟨hbc, hbc2⟩
    · exact Or.inl (hab.trans hbc)
    · exact Or.inl (hbc ▸ hab)
    · exact Or.inl (hab ▸ hbc)
    · exact Or.inr ⟨hab.trans hbc, hab2.trans hbc2⟩

instance : IsTotal Message rowGeDesc where
  total a b := by
    rcases lt_trichotomy a.created_at.epoch b.created_at.epoch with h | h | h
    · exact Or.inr (Or.inl h)
    · rcases Nat.le_total a.id b.id with hid | hid
      · exact Or.inr (Or.inr ⟨h, hid⟩)
      · exact Or.inl (Or.inr ⟨h.symm, hid⟩)
    · exact Or.inl (Or.inl h)

instance : IsTrans Message rowGeDesc where
  trans a b c hab hbc := by
    rcases hab with hab | ⟨hab, hab2⟩ <;> rcases hbc with hbc | ⟨hbc, hbc2⟩
    · exact Or.inl (hbc.trans hab)
    · exact Or.inl (hbc ▸ hab)
    · exact Or.inl (hab ▸ hbc)
    · exact Or.inr ⟨hbc.trans hab, hbc2.trans hab2⟩

/-- The rows of one conversation in table (insertion) order: the shared
`WHERE Message.conversation_id == session_id` of both reads. -/
def DB.convOf (db : DB) (sid : String) : List Message :=
  db.messages.filter (fun r => r.conversation_id == sid)

/-- `DBStore.get_or_create`: `sid = session_id or str(uuid.uuid4())` (`None` and
the empty string are falsy), then insert a conversation row if absent.
`freshUuid` stands for the `str(uuid.uuid4())` value drawn when needed. -/
def DBStore.get_or_create (db : DB) (session_id : Option String)
    (freshUuid : String) : String × DB :=
  let sid := match session_id with
    | some s => if s ≠ "" then s else freshUuid
    | none => freshUuid
  if sid ∈ db.convs then (sid, db)
  else (sid, { db with convs := db.convs ++ [sid] })

/-- `DBStore.append`: create the conversation row if absent (flush), then insert
the message with the autoincrement id, the caller's float `timestamp`, and
`created_at = datetime.fromtimestamp(msg.timestamp, tz=timezone.utc)`.  The
incoming ChatMessage's own `id` (a UUID string) is not stored. -/
def DBStore.append (db : DB) (session_id : String) (msg : ChatMessage) : DB :=
  { convs := if session_id ∈ db.convs then db.convs else db.convs ++ [session_id]
    messages := db.messages ++ [{
      id := db.nextId
      conversation_id := session_id
      role := msg.role
      content := msg.content
      timestamp := msg.timestamp
      created_at := datetime_fromtimestamp_utc msg.timestamp }]
    nextId := db.nextId + 1 }

/-- Row → ChatMessage projection of `DBStore.history`
(`ChatMessage(id=str(r.id), role=r.role, content=r.content, timestamp=r.timestamp)`). -/
def Message.toChat (r : Message) : ChatMessage :=
  { id := toString r.id, role := r.role, content := r.content, timestamp := r.timestamp }

/-- `DBStore.history`: `WHERE conversation_id == sid
ORDER BY created_at ASC, id ASC LIMIT limit`, projected to ChatMessages.
(The Python default for `limit` is 500.) -/
def DBStore.history (db : DB) (session_id : String) (limit : ℕ) : List ChatMessage :=
  (((db.convOf session_id).insertionSort rowLeAsc).take limit).map Message.toChat

/-- One JSON record inside a day group of `history_grouped_by_day`.  The
response's `created_at` field is `r.created_at.isoformat()`; the isoformat
string is a faithful encoding of the instant and is modelled by the instant. -/
structure MessageRecord where
  id : ℕ
  role : String
  content : String
  timestamp : ℚ
  created_at : UTCDateTime
deriving DecidableEq, Repr

def Message.toRecord (r : Message) : MessageRecord :=
  { id := r.id, role := r.role, content := r.content,
    timestamp := r.timestamp, created_at := r.created_at }

/-- `groups.setdefault(day, []).append(rec)` on Python's insertion-ordered
dict, modelled as an association list in key-insertion order. -/
def groupsInsert (gs : List (ℤ × List MessageRecord)) (day : ℤ)
    (rec : MessageRecord) : List (ℤ × List MessageRecord) :=
  match gs with
  | [] => [(day, [rec])]
  | (d, rs) :: rest =>
      if d = day then (d, rs ++ [rec]) :: rest
      else (d, rs) :: groupsInsert rest day rec

/-- Return value of `history_grouped_by_day`:
`{"groups": {...}, "next_cursor": ...}`. -/
structure DayPage where
  groups : List (ℤ × List MessageRecord)
  next_cursor : Option ℕ
deriving DecidableEq, Repr

/-- The ordered, cursored query of `history_grouped_by_day`:
`WHERE conversation_id == sid ORDER BY created_at DESC, id DESC`, then
`if before_id: q = q.filter(Message.id < before_id)` — note `None` **and** `0`
are falsy, so a zero cursor applies no filter. -/
def DBStore.queryDesc (db : DB) (session_id : String)
    (before_id : Option ℤ) : List Message :=
  let q := (db.convOf session_id).insertionSort rowGeDesc
  match before_id with
  | some b => if b ≠ 0 then q.filter (fun r => decide ((r.id : ℤ) < b)) else q
  | none => q

/-- `rows = q.limit(page_size).all()`. -/
def DBStore.pageRows (db : DB) (session_id : String) (before_id : Option ℤ)
    (page_size : ℕ) : List Message :=
  (DBStore.queryDesc db session_id before_id).take page_size

/-- `DBStore.history_grouped_by_day`: group the page's rows by UTC calendar
date in arrival order, and set `next_cursor = rows[-1].id if rows else None`. -/
def DBStore.history_grouped_by_day (db : DB) (session_id : String)
    (before_id : Option ℤ) (page_size : ℕ) : DayPage :=
  let rows := DBStore.pageRows db session_id before_id page_size
  { groups := rows.foldl (fun gs r => groupsInsert gs r.created_at.utcDate r.toRecord) []
    next_cursor := (rows.getLast?).map Message.id }

/-- All records of a page in emission order (concatenation of its day groups). -/
def DayPage.records (p : DayPage) : List MessageRecord :=
  (p.groups.map Prod.snd).flatten

/-- The paging protocol of the UI client: call `history_grouped_by_day`, feed
each page's `next_cursor` back as the next call's `before_id`, stop at the
first `null` cursor.  `fuel` bounds the recursion. -/
def paginateAux (db : DB) (sid : String) (ps : ℕ) :
    ℕ → Option ℤ → List DayPage
  | 0, _ => []
  | fuel + 1, cur =>
      let p := DBStore.history_grouped_by_day db sid cur ps
      match p.next_cursor with
      | none => [p]
      | some c => p :: paginateAux db sid ps fuel (some (c : ℤ))

/-- The full walk, started with no cursor and given enough fuel to finish
(each non-empty page consumes at least one message when the cursor is
well-behaved). -/
def paginate (db : DB) (sid : String) (ps : ℕ) : List DayPage :=
  paginateAux db sid ps (db.messages.length + 1) none

/-! ## strands_agent.py — `StrandsAgentEngine.generate_stream` -/

/-- A backend exception as seen by `generate_stream`'s `except` clause: a
botocore `ClientError` carrying `(e.response or {}).get("Error", {}).get("Code")`
(possibly absent), or any other exception. -/
inductive PyError
  | clientError (code : Option String)
  | otherError
deriving DecidableEq, Repr

/-- How one run of `self.agent.stream_async(prompt)` ends after its events:
normal exhaustion, or an exception raised while iterating. -/
inductive AttemptEnd
  | completed
  | errored (e : PyError)
deriving DecidableEq, Repr

/-- One run of `_stream_once`: the events it yields — each reduced to its
`event.get("data")` field, an optional string — followed by how iteration
ends.  A failure at stream start is an attempt with no events; a mid-stream
failure is an attempt with a non-empty event list and an `errored` end. -/
structure Attempt where
  events : List (Option String)
  outcome : AttemptEnd

/-- `code in ("ExpiredToken", "ExpiredTokenException")`. -/
def isExpiredCode : Option String → Bool
  | some s => s == "ExpiredToken" || s == "ExpiredTokenException"
  | none => false

/-- Whether the `except ClientError` clause recovers from `e` (when
`tried_refresh` is still false): a `ClientError` whose code is one of the
credential-expiry codes. -/
def isTransient : PyError → Bool
  | .clientError code => isExpiredCode code
  | .otherError => false

/-- `last_user = next((m["content"] for m in reversed(messages)
if m["role"] == "user"), "")`. -/
def lastUser (messages : List ChatMessage) : String :=
  ((messages.reverse.find? (fun m => m.role == "user")).map ChatMessage.content).getD ""

/-- The deltas a list of events contributes when no cancellation intervenes:
each event's `data` field when truthy (`if data:` — `None` and `""` are
falsy). -/
def visibleDeltas (es : List (Option String)) : List String :=
  es.filterMap (fun e => match e with
    | some s => if s ≠ "" then some s else none
    | none => none)

/-- The body of `generate_stream`'s `async for event in self._stream_once(...)`
loop over one attempt's events: before handling each event the cancellation
signal is polled (`if cancel.is_set(): return`); otherwise the event's `data`
field is yielded when truthy.  `cancel t` is the state of the signal at the
`t`-th poll of this generator run.  Returns (deltas yielded, next poll index,
whether the loop returned early because the signal was set). -/
def forwardEvents (cancel : ℕ → Bool) : ℕ → List (Option String) → List String × ℕ × Bool
  | t, [] => ([], t, false)
  | t, e :: es =>
      if cancel t then ([], t, true)
      else
        let rest := forwardEvents cancel (t + 1) es
        match e with
        | some s => if s ≠ "" then (s :: rest.1, rest.2) else rest
        | none => rest

/-- How the `generate_stream` generator ends: `return` after a completed
attempt, `return` because the cancellation signal was observed, or an
exception propagating to the consumer. -/
inductive StreamResult
  | completed
  | cancelledEarly
  | raised (e : PyError)
deriving DecidableEq, Repr

/-- `StrandsAgentEngine.generate_stream`, with its `while True` loop unrolled.
`attempts prompt k` is the event stream produced for `prompt` by the agent as
(re)built by the k-th call to `_build_agent`; the backend is opaque, so the
unrolling is exact: `tried_refresh` is false only until the first recovered
`ClientError`, hence at most two attempts ever run, and on the second attempt
every exception is re-raised.  Deltas already yielded by a failed first
attempt are not retracted — they were already consumed.  `cancel` is the
polled signal, indexed by poll count across both attempts.  Returns the
deltas yielded in order, and how the generator ended. -/
def generateStreamRun (messages : List ChatMessage) (attempts : String → ℕ → Attempt)
    (cancel : ℕ → Bool) : List String × StreamResult :=
  let prompt := lastUser messages
  let a0 := attempts prompt 0
  let r0 := forwardEvents cancel 0 a0.events
  if r0.2.2 then (r0.1, .cancelledEarly)
  else
    match a0.outcome with
    | .completed => (r0.1, .completed)
    | .errored e =>
        if isTransient e then
          -- tried_refresh = True; self._build_agent(); continue
          let a1 := attempts prompt 1
          let r1 := forwardEvents cancel r0.2.1 a1.events
          if r1.2.2 then (r0.1 ++ r1.1, .cancelledEarly)
          else
            match a1.outcome with
            | .completed => (r0.1 ++ r1.1, .completed)
            | .errored e2 => (r0.1 ++ r1.1, .raised e2)
        else (r0.1, .raised e)

/-! ## server.py — the `/ws/chat` receive loop -/

/-- `make_user_msg` (server.py): role `"user"`, a fresh `str(uuid.uuid4())` id
and `timestamp = time.time()`, both supplied by the caller here. -/
def make_user_msg (idStr : String) (ts : ℚ) (content : String) : ChatMessage :=
  { id := idStr, role := "user", content := content, timestamp := ts }

/-- `make_assistant_msg` (server.py): role `"assistant"`, fresh uuid id,
`timestamp = time.time()`. -/
def make_assistant_msg (idStr : String) (ts : ℚ) (content : String) : ChatMessage :=
  { id := idStr, role := "assistant", content := content, timestamp := ts }

/-- Behaviour of the environment during one message-frame's stream: the opaque
backend (`attempts`, as in `generateStreamRun`) and the fate of the chunk
sends — `sendFailAt = some k` means `ws.send_json` of the k-th chunk (0-based)
raises `WebSocketDisconnect`. -/
structure StreamScenario where
  attempts : String → ℕ → Attempt
  sendFailAt : Option ℕ

/-- One iteration-worth of input to the `/ws/chat` receive loop. -/
inductive InEvent
  | invalidJson                 -- raw text on which json.loads raises
  | nonObjectJson               -- valid JSON whose top-level value is not an
                                -- object (list, string, number, boolean or
                                -- null): json.loads succeeds, and then
                                -- `data.get("type")` raises AttributeError
  | ping
  | cancelFrame
  | unknownType                 -- parseable JSON object whose "type" is none of
                                -- ping/cancel/message (a missing key included)
  | message (text : String) (session_id : Option String) (scenario : StreamScenario)
  | disconnect                  -- receive_text raises WebSocketDisconnect

/-- Outbound frames.  The wall-clock `ts` fields are omitted (no claim
observes them); `done` carries the assistant ChatMessage and the usage's
`completion_tokens` (the chunk count); `heartbeat` frames come from the
background task, which is outside this sequential model. -/
inductive OutFrame
  | ready
  | pong
  | cancelled
  | errorFrame (error : String)
  | start (session_id : String) (message_id : String)
  | chunk (delta : String)
  | done (message : ChatMessage) (completion_tokens : ℕ)
deriving DecidableEq, Repr

/-- State of one `/ws/chat` connection between loop iterations.  The
`asyncio.Event` held in the handler's `cancel` variable is modelled by
(`cancelGen`, `cancelSet`): `cancelGen` identifies the current Event instance
— each `asyncio.Event()` call takes a fresh generation number from `freshGen`
— and `cancelSet` is its flag.  `uuidCtr` indexes the process-wide stream of
`str(uuid.uuid4())` draws, `clk` the stream of `time.time()` draws used for
message timestamps.  `closed` marks that the handler has returned (socket
torn down). -/
structure ConnState where
  db : DB
  cancelGen : ℕ
  cancelSet : Bool
  freshGen : ℕ
  uuidCtr : ℕ
  clk : ℕ
  closed : Bool
deriving DecidableEq, Repr

/-- The `uuid4` draw index used by `make_user_msg` inside the `message`
handler: `store.get_or_create` first consumes one draw when the client's
`session_id` is `None` or empty (falsy). -/
def resolvedUuidCtr (s : ConnState) (sidOpt : Option String) : ℕ :=
  match sidOpt with
  | some ss => if ss ≠ "" then s.uuidCtr else s.uuidCtr + 1
  | none => s.uuidCtr + 1

/-- `session_id = store.get_or_create(data.get("session_id"))`. -/
def msgSid (uuidS : ℕ → String) (s : ConnState) (sidOpt : Option String) : String :=
  (DBStore.get_or_create s.db sidOpt (uuidS s.uuidCtr)).1

/-- `user_msg = make_user_msg(user_text)`. -/
def msgUser (uuidS : ℕ → String) (clock : ℕ → ℚ) (s : ConnState)
    (text : String) (sidOpt : Option String) : ChatMessage :=
  make_user_msg (uuidS (resolvedUuidCtr s sidOpt)) (clock s.clk) text

/-- The database after `store.get_or_create(...)` then
`store.append(session_id, user_msg)`. -/
def msgDb2 (uuidS : ℕ → String) (clock : ℕ → ℚ) (s : ConnState)
    (text : String) (sidOpt : Option String) : DB :=
  DBStore.append (DBStore.get_or_create s.db sidOpt (uuidS s.uuidCtr)).2
    (msgSid uuidS s sidOpt) (msgUser uuidS clock s text sidOpt)

/-- `hist = store.history(session_id)` (Python default `limit = 500`). -/
def msgHist (uuidS : ℕ → String) (clock : ℕ → ℚ) (s : ConnState)
    (text : String) (sidOpt : Option String) : List ChatMessage :=
  DBStore.history (msgDb2 uuidS clock s text sidOpt) (msgSid uuidS s sidOpt) 500

/-- The `engine.generate_stream(hist, cancel)` run driven by the streaming
loop.  The receive loop is the only task that touches the `cancel` Event and
it is suspended driving this very stream, so every poll made by the generator
observes the value the flag had at stream start; a send failure sets the flag
and immediately breaks out, after which the generator is never polled
again. -/
def msgRun (uuidS : ℕ → String) (clock : ℕ → ℚ) (s : ConnState)
    (text : String) (sidOpt : Option String) (scen : StreamScenario) :
    List String × StreamResult :=
  generateStreamRun (msgHist uuidS clock s text sidOpt) scen.attempts
    (fun _ => s.cancelSet)

/-- One iteration of the `/ws/chat` receive loop (server.py), given the
process-wide uuid and clock streams.  Returns the successor state and the
frames the iteration sent.

For a `message` frame the iteration: resolves the conversation
(`store.get_or_create`), persists the user turn, emits `start`, reads the
chronological history and drives `engine.generate_stream` over it — the named
pieces `msgSid`/`msgUser`/`msgDb2`/`msgHist`/`msgRun` above.
If the generator raises, the exception escapes the handler (no `except`
around the stream loop): the `finally` block runs and the connection closes.
Otherwise, when the flag is unset after the loop the assistant turn is
persisted and `done` emitted; when it is set, the Event is replaced by a
fresh unset instance and nothing is persisted. -/
def serverStep (uuidS : ℕ → String) (clock : ℕ → ℚ) (s : ConnState) :
    InEvent → ConnState × List OutFrame
  | .invalidJson => (s, [.errorFrame "invalid_json"])
  | .nonObjectJson =>
      -- only json.JSONDecodeError is caught; on a non-dict value
      -- `data.get("type")` raises AttributeError, nothing handles it, the
      -- exception escapes the handler (finally runs) and the socket closes
      -- with no frame sent
      ({ s with closed := true }, [])
  | .ping => (s, [.pong])
  | .cancelFrame =>
      -- cancel.set(); send {"type":"cancelled"}; cancel = asyncio.Event()
      ({ s with cancelGen := s.freshGen, cancelSet := false,
                freshGen := s.freshGen + 1 },
       [.cancelled])
  | .unknownType => (s, [.errorFrame "unknown_type"])
  | .disconnect => ({ s with closed := true }, [])
  | .message text sidOpt scenario =>
      let uuidCtr := resolvedUuidCtr s sidOpt
      let sid := msgSid uuidS s sidOpt
      let user_msg := msgUser uuidS clock s text sidOpt
      let db2 := msgDb2 uuidS clock s text sidOpt
      let run := msgRun uuidS clock s text sidOpt scenario
      let deltas := run.1
      let failed := match scenario.sendFailAt with
        | some k => decide (k < deltas.length)
        | none => false
      if failed then
        -- WebSocketDisconnect during a chunk send: cancel.set(); break.
        -- cancel.is_set() is then true: no done frame, no assistant row,
        -- cancel replaced by a fresh Event.
        let k := scenario.sendFailAt.getD 0
        ({ s with db := db2, uuidCtr := uuidCtr + 1, clk := s.clk + 1,
                  cancelGen := s.freshGen, cancelSet := false,
                  freshGen := s.freshGen + 1 },
         .start sid user_msg.id :: (deltas.take k).map .chunk)
      else
        match run.2 with
        | .raised _ =>
            -- exception escapes ws_chat: finally runs, handler returns
            ({ s with db := db2, uuidCtr := uuidCtr + 1, clk := s.clk + 1,
                      closed := true },
             .start sid user_msg.id :: deltas.map .chunk)
        | _ =>
            if s.cancelSet then
              -- stream began with the flag already set: else-branch of
              -- `if not cancel.is_set()`
              ({ s with db := db2, uuidCtr := uuidCtr + 1, clk := s.clk + 1,
                        cancelGen := s.freshGen, cancelSet := false,
                        freshGen := s.freshGen + 1 },
               .start sid user_msg.id :: deltas.map .chunk)
            else
              let assistant := make_assistant_msg (uuidS (uuidCtr + 1))
                (clock (s.clk + 1)) (String.join deltas)
              ({ s with db := DBStore.append db2 sid assistant,
                        uuidCtr := uuidCtr + 2, clk := s.clk + 2 },
               .start sid user_msg.id :: deltas.map .chunk
                 ++ [.done assistant deltas.length])

/-- The `/ws/chat` receive loop: process inbound events in order until the
handler has returned. -/
def serverRun (uuidS : ℕ → String) (clock : ℕ → ℚ) (s : ConnState) :
    List InEvent → ConnState × List OutFrame
  | [] => (s, [])
  | ev :: evs =>
      if s.closed then (s, [])
      else
        let r := serverStep uuidS clock s ev
        let rest := serverRun uuidS clock r.1 evs
        (rest.1, r.2 ++ rest.2)

/-- A fresh connection right after `ws.accept()`: `cancel = asyncio.Event()`
(generation 0, unset), counters at zero. -/
def connInit (db : DB) : ConnState :=
  { db := db, cancelGen := 0, cancelSet := false, freshGen := 1,
    uuidCtr := 0, clk := 0, closed := false }

/-- A whole `/ws/chat` session over a database: accept, send `ready`, run the
loop on the inbound events. -/
def serverSession (uuidS : ℕ → String) (clock : ℕ → ℚ) (db : DB)
    (evs : List InEvent) : ConnState × List OutFrame :=
  let r := serverRun uuidS clock (connInit db) evs
  (r.1, .ready :: r.2)

/-! ## Concrete fixtures used by counterexamples and witnesses -/

/-- A sample uuid stream (stands for successive `str(uuid.uuid4())` draws). -/
def uuidS0 : ℕ → String := fun n => "u" ++ toString n

/-- A sample uuid stream whose values all contain a hyphen, as every canonical
`str(uuid.uuid4())` does (8-4-4-4-12 groups separated by `-`). -/
def uuidHy : ℕ → String := fun n => "u-" ++ toString n

/-- A sample wall clock. -/
def clock0 : ℕ → ℚ := fun n => ((1000 + n : ℕ) : ℚ)

/-- Two in-order messages of conversation `"s"`: ids 1, 2 with timestamps 1, 2. -/
def exC1 : DB :=
  { convs := ["s"]
    messages :=
      [{ id := 1, conversation_id := "s", role := "user", content := "a",
         timestamp := 1, created_at := ⟨1⟩ },
       { id := 2, conversation_id := "s", role := "assistant", content := "b",
         timestamp := 2, created_at := ⟨2⟩ }]
    nextId := 3 }

/-- Two messages of conversation `"s"` whose id order disagrees with their
timestamp order: id 1 carries the newer `created_at`. -/
def exC2 : DB :=
  { convs := ["s"]
    messages :=
      [{ id := 1, conversation_id := "s", role := "user", content := "a",
         timestamp := 10, created_at := ⟨10⟩ },
       { id := 2, conversation_id := "s", role := "assistant", content := "b",
         timestamp := 5, created_at := ⟨5⟩ }]
    nextId := 3 }

/-- Three in-order messages of conversation `"s"`, two calendar days apart. -/
def exC2w : DB :=
  { convs := ["s"]
    messages :=
      [{ id := 1, conversation_id := "s", role := "user", content := "a",
         timestamp := 1, created_at := ⟨1⟩ },
       { id := 2, conversation_id := "s", role := "assistant", content := "b",
         timestamp := 2, created_at := ⟨2⟩ },
       { id := 3, conversation_id := "s", role := "user", content := "c",
         timestamp := 100000, created_at := ⟨100000⟩ }]
    nextId := 4 }

/-- First backend attempt: yields one visible delta, then raises
`ClientError` with code `ExpiredToken` mid-stream. -/
def attemptExpiredMid : Attempt :=
  { events := [some "a"], outcome := .errored (.clientError (some "ExpiredToken")) }

/-- Second backend attempt: one visible delta, completes. -/
def attemptOkB : Attempt := { events := [some "b"], outcome := .completed }

/-- Backend that fails mid-stream with the transient error on the first
attempt and succeeds on the second. -/
def attMid : String → ℕ → Attempt := fun _ k => if k = 0 then attemptExpiredMid else attemptOkB

/-- Backend whose stream raises a non-transient error at stream start. -/
def attFatal : String → ℕ → Attempt := fun _ _ => { events := [], outcome := .errored .otherError }

/-- Backend that completes with deltas `"b"`, `"c"` (one event invisible). -/
def attOk : String → ℕ → Attempt :=
  fun _ _ => { events := [some "b", none, some "c"], outcome := .completed }

/-- Happy-path scenario: backend `attOk`, all sends succeed. -/
def scenOk : StreamScenario := { attempts := attOk, sendFailAt := none }

/-- Scenario whose backend raises a fatal error at stream start. -/
def scenFatal : StreamScenario := { attempts := attFatal, sendFailAt := none }

/-- Scenario where the send of the second chunk (index 1) raises
`WebSocketDisconnect`. -/
def scenFail1 : StreamScenario := { attempts := attOk, sendFailAt := some 1 }

/-! ## C1 — truncation direction of the chronological read -/

/-- C1 (counterexample): with a two-message log (timestamps 1 then 2) and
`limit = 1`, `DBStore.history` returns the message with the *older*
timestamp — it drops the most recent message, not the oldest, contradicting
the claim that the most recent `limit` messages are returned. -/
theorem c1_counterexample :
    DBStore.history exC1 "s" 1
      = [{ id := "1", role := "user", content := "a", timestamp := 1 }]
    ∧ exC1.messages.map Message.timestamp = [1, 2] := by
  constructor
  · rfl
  · rfl

/-- C1 (amended): for every conversation, `DBStore.history` returns the
**oldest** `limit` messages, still ordered oldest-to-newest by
`(created_at, id)`; when `limit` is smaller than the log it drops the newest
messages, never the oldest: the result is the `limit`-prefix of the sorted
log, every kept message preceding (key-wise) every dropped one. -/
theorem c1_amended (db : DB) (sid : String) (limit : ℕ) :
    DBStore.history db sid limit
      = (((db.convOf sid).insertionSort rowLeAsc).take limit).map Message.toChat
    ∧ List.Sorted rowLeAsc ((db.convOf sid).insertionSort rowLeAsc)
    ∧ ((db.convOf sid).insertionSort rowLeAsc).Perm (db.convOf sid)
    ∧ ∀ a ∈ ((db.convOf sid).insertionSort rowLeAsc).take limit,
        ∀ b ∈ ((db.convOf sid).insertionSort rowLeAsc).drop limit, rowLeAsc a b := by
  refine ⟨rfl, List.sorted_insertionSort _ _, List.perm_insertionSort _ _, ?_⟩
  intro a ha b hb
  have hs : List.Pairwise rowLeAsc
      (((db.convOf sid).insertionSort rowLeAsc).take limit
        ++ ((db.convOf sid).insertionSort rowLeAsc).drop limit) := by
    rw [List.take_append_drop]
    exact List.sorted_insertionSort rowLeAsc (db.convOf sid)
  exact (List.pairwise_append.mp hs).2.2 a ha b hb

/-! ## C9 — a zero cursor is treated as no cursor -/

/-- C9: calling the day-grouped read with `before_id = 0` behaves exactly like
passing no cursor (Python's `if before_id:` treats `0` as falsy), so the
newest page of the conversation is returned rather than an empty
`id < 0` page. -/
theorem c9_zero_cursor (db : DB) (sid : String) (ps : ℕ) :
    DBStore.history_grouped_by_day db sid (some 0) ps
      = DBStore.history_grouped_by_day db sid none ps := by
  simp [DBStore.history_grouped_by_day, DBStore.pageRows, DBStore.queryDesc]

/-! ## C7 — which protocol errors the session survives -/

/-- C7 (counterexample): a payload that is valid JSON but not an object
(e.g. `[1,2,3]`, `"hi"`, `42`, `null`) is not parseable as the expected
message shape, yet only `json.JSONDecodeError` is caught: `data.get("type")`
raises `AttributeError`, which nothing handles.  On a fresh connection such a
frame produces **no** `error` frame, closes the connection, and the
subsequent `ping` is never processed — refuting "emits an error frame and
remains in its current state" for every malformed payload. -/
theorem c7_counterexample :
    serverRun uuidS0 clock0 (connInit DB.empty) [.nonObjectJson, .ping]
      = ({ connInit DB.empty with closed := true }, []) :=
  rfl

/-- C7 (amended): a frame whose raw text fails JSON parsing, and a valid
JSON **object** frame with a recognized-but-unsupported (or missing) type,
each make the loop emit exactly one `error` frame, leave the connection
state unchanged, and the receive loop goes on to process the subsequent
frames.  But a payload that is valid JSON and not an object — list, string,
number, boolean or null — is malformed yet uncaught: `data.get("type")`
raises `AttributeError`, the connection closes with no `error` frame, and no
subsequent frame is processed. -/
theorem c7_amended (uuidS : ℕ → String) (clock : ℕ → ℚ) (s : ConnState)
    (evs : List InEvent) (hopen : s.closed = false) :
    serverStep uuidS clock s .invalidJson = (s, [.errorFrame "invalid_json"])
    ∧ serverStep uuidS clock s .unknownType = (s, [.errorFrame "unknown_type"])
    ∧ serverRun uuidS clock s (.invalidJson :: evs)
        = ((serverRun uuidS clock s evs).1,
           .errorFrame "invalid_json" :: (serverRun uuidS clock s evs).2)
    ∧ serverRun uuidS clock s (.unknownType :: evs)
        = ((serverRun uuidS clock s evs).1,
           .errorFrame "unknown_type" :: (serverRun uuidS clock s evs).2)
    ∧ serverStep uuidS clock s .nonObjectJson = ({ s with closed := true }, [])
    ∧ serverRun uuidS clock s (.nonObjectJson :: evs)
        = ({ s with closed := true }, []) := by
  refine ⟨rfl, rfl, ?_, ?_, rfl, ?_⟩
  · simp [serverRun, serverStep, hopen]
  · simp [serverRun, serverStep, hopen]
  · have h1 : serverStep uuidS clock s .nonObjectJson
        = ({ s with closed := true }, []) := rfl
    have hclosed : serverRun uuidS clock { s with closed := true } evs
        = ({ s with closed := true }, []) := by
      cases evs with
      | nil => rfl
      | cons e es => simp [serverRun]
    simp only [serverRun, hopen, Bool.false_eq_true, if_false, h1]
    rw [hclosed]
    rfl

/-- C7 witness: the concrete trace `[invalid json, ping]` on a fresh
connection yields an error frame followed by the ping's pong. -/
theorem c7_witness :
    serverRun uuidS0 clock0 (connInit DB.empty) (.invalidJson :: [.ping])
      = ((serverRun uuidS0 clock0 (connInit DB.empty) [.ping]).1,
         .errorFrame "invalid_json"
           :: (serverRun uuidS0 clock0 (connInit DB.empty) [.ping]).2) :=
  (c7_amended uuidS0 clock0 (connInit DB.empty) [.ping] rfl).2.2.1

/-! ## C8 — `created_at` is the UTC conversion of `timestamp` -/

/-- Membership in the flattened groups after one `setdefault(...).append(...)`:
exactly the old records plus the inserted one. -/
theorem mem_records_groupsInsert (gs : List (ℤ × List MessageRecord)) (d : ℤ)
    (x rec : MessageRecord) :
    rec ∈ ((groupsInsert gs d x).map Prod.snd).flatten
      ↔ rec ∈ (gs.map Prod.snd).flatten ∨ rec = x := by
  induction gs with
  | nil => simp [groupsInsert]
  | cons hd tl ih =>
    obtain ⟨d', rs⟩ := hd
    by_cases h : d' = d
    · simp only [groupsInsert, if_pos h, List.map_cons, List.flatten_cons,
        List.mem_append, List.mem_singleton]
      tauto
    · simp only [groupsInsert, if_neg h, List.map_cons, List.flatten_cons,
        List.mem_append, ih]
      tauto

/-- Membership in the flattened groups built by the grouping fold: the seed's
records plus one record per processed row. -/
theorem mem_records_foldl (rows : List Message) :
    ∀ (gs : List (ℤ × List MessageRecord)) (rec : MessageRecord),
      rec ∈ ((rows.foldl
          (fun gs r => groupsInsert gs r.created_at.utcDate r.toRecord) gs).map
            Prod.snd).flatten
        ↔ rec ∈ (gs.map Prod.snd).flatten ∨ ∃ r ∈ rows, rec = r.toRecord := by
  induction rows with
  | nil => simp
  | cons r rows ih =>
    intro gs rec
    simp only [List.foldl_cons, ih, mem_records_groupsInsert, List.mem_cons]
    constructor
    · rintro (⟨h | h⟩ | ⟨r', hr', h⟩)
      · exact Or.inl h
      · exact Or.inr ⟨r, Or.inl rfl, h⟩
      · exact Or.inr ⟨r', Or.inr hr', h⟩
    · rintro (h | ⟨r', hr' | hr', h⟩)
      · exact Or.inl (Or.inl h)
      · exact Or.inl (Or.inr (hr' ▸ h))
      · exact Or.inr ⟨r', hr', h⟩

/-- Every row a page returns belongs to the conversation's filtered log. -/
theorem mem_pageRows {db : DB} {sid : String} {before : Option ℤ} {ps : ℕ}
    {r : Message} (h : r ∈ DBStore.pageRows db sid before ps) :
    r ∈ db.convOf sid := by
  have h' := List.take_subset _ _ h
  match before with
  | none =>
    simp only [DBStore.queryDesc] at h'
    exact (List.mem_insertionSort rowGeDesc).mp h'
  | some b =>
    by_cases hb : b ≠ 0
    · simp only [DBStore.queryDesc, if_pos hb] at h'
      exact (List.mem_insertionSort rowGeDesc).mp (List.mem_of_mem_filter h')
    · simp only [DBStore.queryDesc, if_neg hb] at h'
      exact (List.mem_insertionSort rowGeDesc).mp h'

/-- Rows of the conversation's filtered log are rows of the table, for that
conversation. -/
theorem mem_convOf {db : DB} {sid : String} {r : Message}
    (h : r ∈ db.convOf sid) : r ∈ db.messages ∧ r.conversation_id = sid := by
  have := List.mem_filter.mp h
  exact ⟨this.1, by simpa using this.2⟩

/-- C8: an append with float timestamp `T` stores `created_at` equal to the
UTC conversion of `T` (exactly, at the model's precision); the conversion
invariant is preserved over the whole table; and both reads only ever return
records consistent under that conversion — the chronological read's rows come
from consistent table rows carrying their exact `timestamp`, and every record
of every day-grouped page satisfies `created_at = to_utc(timestamp)`. -/
theorem c8_roundtrip (db : DB) (sid : String) (msg : ChatMessage)
    (lim ps : ℕ) (before : Option ℤ)
    (hdb : ∀ r ∈ db.messages, r.created_at = datetime_fromtimestamp_utc r.timestamp) :
    (∀ r ∈ (DBStore.append db sid msg).messages,
        r.created_at = datetime_fromtimestamp_utc r.timestamp)
    ∧ ((DBStore.append db sid msg).messages.getLast?).map
        (fun r => (r.timestamp, r.created_at))
        = some (msg.timestamp, datetime_fromtimestamp_utc msg.timestamp)
    ∧ (∀ c ∈ DBStore.history db sid lim, ∃ r ∈ db.messages,
        c = r.toChat ∧ r.created_at = datetime_fromtimestamp_utc c.timestamp)
    ∧ (∀ rec ∈ (DBStore.history_grouped_by_day db sid before ps).records,
        rec.created_at = datetime_fromtimestamp_utc rec.timestamp) := by
  refine ⟨?_, ?_, ?_, ?_⟩
  · intro r hr
    rw [DBStore.append] at hr
    rcases List.mem_append.mp hr with hr | hr
    · exact hdb r hr
    · rw [List.mem_singleton] at hr
      subst hr; rfl
  · rw [DBStore.append, ← List.concat_eq_append, List.getLast?_concat]
    rfl
  · intro c hc
    rw [DBStore.history] at hc
    obtain ⟨r, hr, rfl⟩ := List.mem_map.mp hc
    have hr' : r ∈ db.convOf sid :=
      (List.mem_insertionSort rowLeAsc).mp (List.take_subset _ _ hr)
    refine ⟨r, (mem_convOf hr').1, rfl, hdb r (mem_convOf hr').1⟩
  · intro rec hrec
    rw [DBStore.history_grouped_by_day, DayPage.records] at hrec
    rw [mem_records_foldl] at hrec
    rcases hrec with h | ⟨r, hr, rfl⟩
    · simp at h
    · have := hdb r (mem_convOf (mem_pageRows hr)).1
      simpa [Message.toRecord] using this

/-- A concrete ChatMessage as the server would build one. -/
def msgW : ChatMessage := { id := "u9", role := "user", content := "hello", timestamp := 42 }

/-- C8 witness: the consistency theorem applied to the concrete two-message
database `exC1` and the concrete append `msgW`. -/
theorem c8_witness :
    (∀ r ∈ exC1.messages, r.created_at = datetime_fromtimestamp_utc r.timestamp)
    ∧ ((∀ r ∈ (DBStore.append exC1 "s" msgW).messages,
          r.created_at = datetime_fromtimestamp_utc r.timestamp)
      ∧ ((DBStore.append exC1 "s" msgW).messages.getLast?).map
          (fun r => (r.timestamp, r.created_at))
          = some (msgW.timestamp, datetime_fromtimestamp_utc msgW.timestamp)
      ∧ (∀ c ∈ DBStore.history exC1 "s" 10, ∃ r ∈ exC1.messages,
          c = r.toChat ∧ r.created_at = datetime_fromtimestamp_utc c.timestamp)
      ∧ (∀ rec ∈ (DBStore.history_grouped_by_day exC1 "s" none 10).records,
          rec.created_at = datetime_fromtimestamp_utc rec.timestamp)) :=
  ⟨by decide, c8_roundtrip exC1 "s" msgW 10 10 none (by decide)⟩

/-! ## Engine lemmas shared by C3, C5, C6, C10 -/

/-- With the cancellation signal never set, the event loop yields every
visible delta and reports no early return. -/
theorem forwardEvents_const_false (es : List (Option String)) :
    ∀ t, forwardEvents (fun _ => false) t es = (visibleDeltas es, t + es.length, false) := by
  induction es with
  | nil => intro t; rfl
  | cons e es ih =>
    intro t
    have h := ih (t + 1)
    rcases e with _ | s
    · simp [forwardEvents, visibleDeltas, h]
      omega
    · by_cases hs : s = ""
      · subst hs
        simp [forwardEvents, visibleDeltas, h]
        omega
      · simp [forwardEvents, visibleDeltas, h, hs]
        omega

/-- Uncancelled run, first attempt completes: all of its visible deltas. -/
theorem generateStreamRun_completed (messages : List ChatMessage)
    (attempts : String → ℕ → Attempt) (es0 : List (Option String))
    (h : attempts (lastUser messages) 0 = ⟨es0, .completed⟩) :
    generateStreamRun messages attempts (fun _ => false)
      = (visibleDeltas es0, .completed) := by
  simp [generateStreamRun, h, forwardEvents_const_false]

/-- Uncancelled run, first attempt fails with an error the retry clause does
not absorb: its deltas so far, then the error propagates, with no retry. -/
theorem generateStreamRun_raised_first (messages : List ChatMessage)
    (attempts : String → ℕ → Attempt) (es0 : List (Option String)) (e : PyError)
    (h : attempts (lastUser messages) 0 = ⟨es0, .errored e⟩)
    (ht : isTransient e = false) :
    generateStreamRun messages attempts (fun _ => false)
      = (visibleDeltas es0, .raised e) := by
  simp [generateStreamRun, h, forwardEvents_const_false, ht]

/-- Uncancelled run, transient first failure, second attempt fails too (with
any error): both attempts' deltas, then the second error propagates — the
retry happens exactly once. -/
theorem generateStreamRun_raised_second (messages : List ChatMessage)
    (attempts : String → ℕ → Attempt) (es0 es1 : List (Option String))
    (e e2 : PyError)
    (h0 : attempts (lastUser messages) 0 = ⟨es0, .errored e⟩)
    (ht : isTransient e = true)
    (h1 : attempts (lastUser messages) 1 = ⟨es1, .errored e2⟩) :
    generateStreamRun messages attempts (fun _ => false)
      = (visibleDeltas es0 ++ visibleDeltas es1, .raised e2) := by
  simp [generateStreamRun, h0, h1, forwardEvents_const_false, ht]

/-- Uncancelled run, transient first failure, second attempt completes: the
failed attempt's prefix of deltas followed, exactly once, by the successful
stream's deltas. -/
theorem generateStreamRun_retry_completed (messages : List ChatMessage)
    (attempts : String → ℕ → Attempt) (es0 es1 : List (Option String)) (e : PyError)
    (h0 : attempts (lastUser messages) 0 = ⟨es0, .errored e⟩)
    (ht : isTransient e = true)
    (h1 : attempts (lastUser messages) 1 = ⟨es1, .completed⟩) :
    generateStreamRun messages attempts (fun _ => false)
      = (visibleDeltas es0 ++ visibleDeltas es1, .completed) := by
  simp [generateStreamRun, h0, h1, forwardEvents_const_false, ht]

/-! ## C3 — retry policy of the streaming bridge -/

/-- C3 (counterexample): the backend raises the credential-expiry `ClientError`
**mid-stream** — after yielding delta `"a"` — not at stream start; the claim
says only a failure at stream start is retried, so this error should
propagate.  Instead the code rebuilds and retries, and the run completes with
`["a", "b"]`: the first attempt's delta is followed by the retried stream's. -/
theorem c3_counterexample :
    generateStreamRun [] attMid (fun _ => false) = (["a", "b"], .completed) := by
  rfl

/-- C3 (amended): `generate_stream` rebuilds the backend agent and retries at
most once, and exactly when the backend raises `ClientError` with code
`ExpiredToken`/`ExpiredTokenException` at **any point during** the stream (not
only at stream start); any other error, or a second error after the one
retry, propagates to the caller; deltas already yielded by a failed first
attempt are not retracted, and when the first attempt fails before yielding
anything (at stream start) and the second succeeds, the successful stream's
deltas are yielded exactly once, with none duplicated or dropped. -/
theorem c3_amended (messages : List ChatMessage) (attempts : String → ℕ → Attempt)
    (es0 es1 : List (Option String)) (e e2 : PyError) :
    (attempts (lastUser messages) 0 = ⟨es0, .errored e⟩ → isTransient e = false →
      generateStreamRun messages attempts (fun _ => false)
        = (visibleDeltas es0, .raised e))
    ∧ (attempts (lastUser messages) 0 = ⟨es0, .errored e⟩ → isTransient e = true →
       attempts (lastUser messages) 1 = ⟨es1, .errored e2⟩ →
      generateStreamRun messages attempts (fun _ => false)
        = (visibleDeltas es0 ++ visibleDeltas es1, .raised e2))
    ∧ (attempts (lastUser messages) 0 = ⟨es0, .errored e⟩ → isTransient e = true →
       attempts (lastUser messages) 1 = ⟨es1, .completed⟩ →
      generateStreamRun messages attempts (fun _ => false)
        = (visibleDeltas es0 ++ visibleDeltas es1, .completed))
    ∧ (attempts (lastUser messages) 0 = ⟨[], .errored e⟩ → isTransient e = true →
       attempts (lastUser messages) 1 = ⟨es1, .completed⟩ →
      generateStreamRun messages attempts (fun _ => false)
        = (visibleDeltas es1, .completed)) :=
  ⟨fun h0 ht => generateStreamRun_raised_first messages attempts es0 e h0 ht,
   fun h0 ht h1 => generateStreamRun_raised_second messages attempts es0 es1 e e2 h0 ht h1,
   fun h0 ht h1 => generateStreamRun_retry_completed messages attempts es0 es1 e h0 ht h1,
   fun h0 ht h1 => by
     have := generateStreamRun_retry_completed messages attempts [] es1 e h0 ht h1
     simpa [visibleDeltas] using this⟩

/-- C3 witness: the amended theorem applied to the concrete backend `attMid`
(transient failure after one delta, then success with one delta). -/
theorem c3_witness :
    generateStreamRun [] attMid (fun _ => false)
      = (visibleDeltas [some "a"] ++ visibleDeltas [some "b"], .completed) :=
  (c3_amended [] attMid [some "a"] [some "b"]
      (.clientError (some "ExpiredToken")) .otherError).2.2.1 rfl rfl rfl

/-! ## C4 — lifecycle of the cancellation signal -/

/-- If the signal is unset when an iteration starts, it is unset when the
iteration ends: the ping/error paths do not touch it, the cancel-frame and
cancelled-stream paths replace it with a fresh unset Event, and a normally
completed stream leaves the (still unset) instance in place. -/
theorem serverStep_cancelSet_false (uuidS : ℕ → String) (clock : ℕ → ℚ)
    (s : ConnState) (ev : InEvent) (h : s.cancelSet = false) :
    ((serverStep uuidS clock s ev).1).cancelSet = false := by
  cases ev with
  | message text sidOpt scen =>
    simp only [serverStep, h]
    split
    · rfl
    · split
      · rfl
      · simp [h]
  | invalidJson => exact h
  | nonObjectJson => exact h
  | ping => exact h
  | cancelFrame => rfl
  | unknownType => exact h
  | disconnect => exact h

/-- If the handler has already returned, the loop does nothing. -/
theorem serverRun_closed (uuidS : ℕ → String) (clock : ℕ → ℚ) (s : ConnState)
    (evs : List InEvent) (h : s.closed = true) :
    serverRun uuidS clock s evs = (s, []) := by
  cases evs with
  | nil => rfl
  | cons ev evs => simp [serverRun, h]

/-- The unset-signal invariant holds along every run. -/
theorem serverRun_cancelSet_false (uuidS : ℕ → String) (clock : ℕ → ℚ)
    (evs : List InEvent) :
    ∀ s : ConnState, s.cancelSet = false →
      ((serverRun uuidS clock s evs).1).cancelSet = false := by
  induction evs with
  | nil => intro s h; exact h
  | cons ev evs ih =>
    intro s h
    by_cases hc : s.closed = true
    · rw [serverRun_closed uuidS clock s (ev :: evs) hc]; exact h
    · simp only [serverRun, hc, if_false]
      exact ih _ (serverStep_cancelSet_false uuidS clock s ev h)

/-- Every iteration either keeps the current Event instance with its flag
unchanged, or installs a brand-new unset instance — it never leaves a used
(set) instance installed and never re-installs an old instance. -/
theorem serverStep_event_dichotomy (uuidS : ℕ → String) (clock : ℕ → ℚ)
    (s : ConnState) (ev : InEvent) :
    (((serverStep uuidS clock s ev).1).cancelGen = s.cancelGen
      ∧ ((serverStep uuidS clock s ev).1).cancelSet = s.cancelSet)
    ∨ (((serverStep uuidS clock s ev).1).cancelGen = s.freshGen
      ∧ ((serverStep uuidS clock s ev).1).cancelSet = false
      ∧ ((serverStep uuidS clock s ev).1).freshGen = s.freshGen + 1) := by
  cases ev with
  | message text sidOpt scen =>
    simp only [serverStep]
    split
    · exact Or.inr ⟨rfl, rfl, rfl⟩
    · split
      · exact Or.inl ⟨rfl, rfl⟩
      · split
        · exact Or.inr ⟨rfl, rfl, rfl⟩
        · exact Or.inl ⟨rfl, rfl⟩
  | invalidJson => exact Or.inl ⟨rfl, rfl⟩
  | nonObjectJson => exact Or.inl ⟨rfl, rfl⟩
  | ping => exact Or.inl ⟨rfl, rfl⟩
  | cancelFrame => exact Or.inr ⟨rfl, rfl, rfl⟩
  | unknownType => exact Or.inl ⟨rfl, rfl⟩
  | disconnect => exact Or.inl ⟨rfl, rfl⟩

/-- C4 (counterexample): a stream that ends normally and un-cancelled does
**not** get a fresh signal instance, contrary to the claim's "after any stream
ends ... the cancellation signal is replaced": after the completed stream
below (its `done` frame is in the output), the connection still holds the
original Event (generation 0) and no new Event was ever allocated
(`freshGen` still 1). -/
theorem c4_counterexample :
    (serverRun uuidS0 clock0 (connInit DB.empty)
        [.message "hi" (some "s") scenOk]).1.cancelGen = 0
    ∧ (serverRun uuidS0 clock0 (connInit DB.empty)
        [.message "hi" (some "s") scenOk]).1.freshGen = 1
    ∧ (serverRun uuidS0 clock0 (connInit DB.empty)
          [.message "hi" (some "s") scenOk]).2
        = [.start "s" "u0", .chunk "b", .chunk "c",
           .done { id := "u1", role := "assistant", content := "bc", timestamp := 1001 } 2] := by
  exact ⟨rfl, rfl, rfl⟩

/-- C4 (amended): the signal a newly started stream observes is always unset —
but by a different mechanism than the claim states: an iteration replaces the
Event with a fresh unset instance exactly when the signal was set (cancel
frame, or a stream that ended cancelled), while a stream that ends normally
un-cancelled keeps the existing, still-unset instance.  Concretely: (i) an
iteration started with the signal unset ends with it unset, (ii) hence from a
fresh connection the signal is unset whenever any frame — in particular a
`message` frame starting a stream — is about to be handled, and (iii) every
iteration either keeps the instance (flag unchanged) or installs a fresh
unset one. -/
theorem c4_amended (uuidS : ℕ → String) (clock : ℕ → ℚ) :
    (∀ (s : ConnState) (ev : InEvent), s.cancelSet = false →
        ((serverStep uuidS clock s ev).1).cancelSet = false)
    ∧ (∀ (db : DB) (evs : List InEvent),
        ((serverRun uuidS clock (connInit db) evs).1).cancelSet = false)
    ∧ (∀ (s : ConnState) (ev : InEvent),
        (((serverStep uuidS clock s ev).1).cancelGen = s.cancelGen
          ∧ ((serverStep uuidS clock s ev).1).cancelSet = s.cancelSet)
        ∨ (((serverStep uuidS clock s ev).1).cancelGen = s.freshGen
          ∧ ((serverStep uuidS clock s ev).1).cancelSet = false
          ∧ ((serverStep uuidS clock s ev).1).freshGen = s.freshGen + 1)) :=
  ⟨fun s ev h => serverStep_cancelSet_false uuidS clock s ev h,
   fun db evs => serverRun_cancelSet_false uuidS clock evs (connInit db) rfl,
   fun s ev => serverStep_event_dichotomy uuidS clock s ev⟩

/-- C4 witness: after a cancelled stream (send failure) followed by a cancel
frame, the connection's signal is unset. -/
theorem c4_witness :
    ((serverRun uuidS0 clock0 (connInit DB.empty)
        [.message "hi" (some "s") scenFail1, .cancelFrame]).1).cancelSet = false :=
  (c4_amended uuidS0 clock0).2.1 DB.empty
    [.message "hi" (some "s") scenFail1, .cancelFrame]

/-! ## C6 — backend failure ends the connection, not just the stream -/

/-- `get_or_create` only ever touches the conversations table. -/
theorem get_or_create_messages (db : DB) (sidOpt : Option String) (u : String) :
    (DBStore.get_or_create db sidOpt u).2.messages = db.messages
    ∧ (DBStore.get_or_create db sidOpt u).2.nextId = db.nextId := by
  unfold DBStore.get_or_create
  refine ⟨?_, ?_⟩ <;>
    (dsimp only
     repeat' split
     all_goals rfl)

/-- When the generator raises (and no send failed first), the `message`
iteration ends with the handler closed, having emitted only the `start` frame
and the chunks. -/
theorem serverStep_message_raised (uuidS : ℕ → String) (clock : ℕ → ℚ)
    (s : ConnState) (text : String) (sidOpt : Option String)
    (scen : StreamScenario) (ds : List String) (e : PyError)
    (hf : scen.sendFailAt = none)
    (hrun : msgRun uuidS clock s text sidOpt scen = (ds, .raised e)) :
    serverStep uuidS clock s (.message text sidOpt scen)
      = ({ s with db := msgDb2 uuidS clock s text sidOpt,
                  uuidCtr := resolvedUuidCtr s sidOpt + 1, clk := s.clk + 1,
                  closed := true },
         .start (msgSid uuidS s sidOpt) (msgUser uuidS clock s text sidOpt).id
           :: ds.map .chunk) := by
  simp [serverStep, hrun, hf]

/-- Consequences of a raising stream, shared by the two sub-cases of C6. -/
theorem serverStep_message_raised_consequences (uuidS : ℕ → String)
    (clock : ℕ → ℚ) (s : ConnState) (text : String) (sidOpt : Option String)
    (scen : StreamScenario) (ds : List String) (e : PyError) (evs : List InEvent)
    (hopen : s.closed = false) (hf : scen.sendFailAt = none)
    (hrun : msgRun uuidS clock s text sidOpt scen = (ds, .raised e)) :
    (serverStep uuidS clock s (.message text sidOpt scen)).1.closed = true
    ∧ (∀ err, OutFrame.errorFrame err
        ∉ (serverStep uuidS clock s (.message text sidOpt scen)).2)
    ∧ (∀ m c, OutFrame.done m c
        ∉ (serverStep uuidS clock s (.message text sidOpt scen)).2)
    ∧ serverRun uuidS clock s (.message text sidOpt scen :: evs)
        = ((serverStep uuidS clock s (.message text sidOpt scen)).1,
           (serverStep uuidS clock s (.message text sidOpt scen)).2) := by
  have hstep := serverStep_message_raised uuidS clock s text sidOpt scen ds e hf hrun
  refine ⟨by rw [hstep], ?_, ?_, ?_⟩
  · intro err
    rw [hstep]
    simp
  · intro m c
    rw [hstep]
    simp
  · simp only [serverRun, hopen, Bool.false_eq_true, if_false]
    rw [hstep, serverRun_closed uuidS clock _ evs rfl]
    simp

/-- C6 (amended): when the backend stream fails with a non-transient error, or
with a second error after the single retry, the current stream terminates and
the **connection closes**: the exception escapes the handler uncaught, **no**
`error` frame is sent for it, no `done` frame is emitted, and no subsequent
inbound frame is processed — the session does not return to `Ready` (only
protocol errors produce `error` frames). -/
theorem c6_amended (uuidS : ℕ → String) (clock : ℕ → ℚ) (s : ConnState)
    (text : String) (sidOpt : Option String) (scen : StreamScenario)
    (evs : List InEvent) (es0 es1 : List (Option String)) (e e2 : PyError)
    (hopen : s.closed = false) (hc : s.cancelSet = false)
    (hf : scen.sendFailAt = none) :
    ((∀ p, scen.attempts p 0 = ⟨es0, .errored e⟩) → isTransient e = false →
      (serverStep uuidS clock s (.message text sidOpt scen)).1.closed = true
      ∧ (∀ err, OutFrame.errorFrame err
          ∉ (serverStep uuidS clock s (.message text sidOpt scen)).2)
      ∧ (∀ m c, OutFrame.done m c
          ∉ (serverStep uuidS clock s (.message text sidOpt scen)).2)
      ∧ serverRun uuidS clock s (.message text sidOpt scen :: evs)
          = ((serverStep uuidS clock s (.message text sidOpt scen)).1,
             (serverStep uuidS clock s (.message text sidOpt scen)).2))
    ∧ ((∀ p, scen.attempts p 0 = ⟨es0, .errored e⟩) → isTransient e = true →
       (∀ p, scen.attempts p 1 = ⟨es1, .errored e2⟩) →
      (serverStep uuidS clock s (.message text sidOpt scen)).1.closed = true
      ∧ (∀ err, OutFrame.errorFrame err
          ∉ (serverStep uuidS clock s (.message text sidOpt scen)).2)
      ∧ (∀ m c, OutFrame.done m c
          ∉ (serverStep uuidS clock s (.message text sidOpt scen)).2)
      ∧ serverRun uuidS clock s (.message text sidOpt scen :: evs)
          = ((serverStep uuidS clock s (.message text sidOpt scen)).1,
             (serverStep uuidS clock s (.message text sidOpt scen)).2)) := by
  have hcancel : (fun _ : ℕ => s.cancelSet) = (fun _ => false) := funext (fun _ => hc)
  constructor
  · intro hatt ht
    have hrun : msgRun uuidS clock s text sidOpt scen = (visibleDeltas es0, .raised e) := by
      unfold msgRun
      rw [hcancel]
      exact generateStreamRun_raised_first _ _ _ _ (hatt _) ht
    exact serverStep_message_raised_consequences uuidS clock s text sidOpt scen
      _ e evs hopen hf hrun
  · intro hatt ht hatt1
    have hrun : msgRun uuidS clock s text sidOpt scen
        = (visibleDeltas es0 ++ visibleDeltas es1, .raised e2) := by
      unfold msgRun
      rw [hcancel]
      exact generateStreamRun_raised_second _ _ _ _ _ _ (hatt _) ht (hatt1 _)
    exact serverStep_message_raised_consequences uuidS clock s text sidOpt scen
      _ e2 evs hopen hf hrun

/-- C6 (counterexample): a backend stream failing at stream start with a
non-transient error.  The claim requires an `error` frame and a return to
`Ready`; instead the whole output of the connection from the failing
`message` frame on is just the `start` frame — no `error` frame — the
handler is closed, and the subsequent `ping` is never answered. -/
theorem c6_counterexample :
    (serverRun uuidS0 clock0 (connInit DB.empty)
        [.message "hi" (some "s") scenFatal, .ping]).2 = [.start "s" "u0"]
    ∧ (serverRun uuidS0 clock0 (connInit DB.empty)
        [.message "hi" (some "s") scenFatal, .ping]).1.closed = true :=
  ⟨rfl, rfl⟩

/-- C6 witness: the amended theorem applied to the concrete fatal scenario. -/
theorem c6_witness :
    (serverStep uuidS0 clock0 (connInit DB.empty)
        (.message "hi" (some "s") scenFatal)).1.closed = true
    ∧ (∀ err, OutFrame.errorFrame err
        ∉ (serverStep uuidS0 clock0 (connInit DB.empty)
            (.message "hi" (some "s") scenFatal)).2)
    ∧ (∀ m c, OutFrame.done m c
        ∉ (serverStep uuidS0 clock0 (connInit DB.empty)
            (.message "hi" (some "s") scenFatal)).2)
    ∧ serverRun uuidS0 clock0 (connInit DB.empty)
          [.message "hi" (some "s") scenFatal, .ping]
        = ((serverStep uuidS0 clock0 (connInit DB.empty)
              (.message "hi" (some "s") scenFatal)).1,
           (serverStep uuidS0 clock0 (connInit DB.empty)
              (.message "hi" (some "s") scenFatal)).2) :=
  (c6_amended uuidS0 clock0 (connInit DB.empty) "hi" (some "s") scenFatal
      [.ping] [] [] .otherError .otherError rfl rfl rfl).1 (fun _ => rfl) rfl

/-! ## C5 — cancellation stops the stream at an event boundary -/

/-- Deltas yielded under a monotone (threshold) cancellation signal that
becomes set at poll `n`: exactly the visible deltas of the events polled
strictly before `n` — the signal is checked before each event's delta is
yielded, and nothing is yielded from the set poll on. -/
theorem forwardEvents_threshold_deltas (n : ℕ) :
    ∀ (es : List (Option String)) (t : ℕ),
      (forwardEvents (fun i => decide (n ≤ i)) t es).1
        = visibleDeltas (es.take (n - t)) := by
  intro es
  induction es with
  | nil => intro t; simp [forwardEvents, visibleDeltas]
  | cons e es ih =>
    intro t
    by_cases h : n ≤ t
    · have h0 : n - t = 0 := by omega
      simp [forwardEvents, h, h0, visibleDeltas]
    · have h1 : n - t = (n - (t + 1)) + 1 := by omega
      rw [h1]
      rcases e with _ | s
      · simp [forwardEvents, h, ih (t + 1), visibleDeltas]
      · by_cases hs : s = ""
        · subst hs
          simp [forwardEvents, h, ih (t + 1), visibleDeltas]
        · simp [forwardEvents, h, ih (t + 1), visibleDeltas, hs]

/-- If the signal sets while events remain, the loop returns early (within one
backend-event boundary) instead of draining the stream. -/
theorem forwardEvents_threshold_stops (n : ℕ) :
    ∀ (es : List (Option String)) (t : ℕ), n - t < es.length →
      (forwardEvents (fun i => decide (n ≤ i)) t es).2.2 = true := by
  intro es
  induction es with
  | nil => intro t h; simp at h
  | cons e es ih =>
    intro t hlt
    by_cases h : n ≤ t
    · simp [forwardEvents, h]
    · have h2 : n - (t + 1) < es.length := by
        simp only [List.length_cons] at hlt
        omega
      have := ih (t + 1) h2
      rcases e with _ | s
      · simpa [forwardEvents, h] using this
      · by_cases hs : s = ""
        · subst hs
          simpa [forwardEvents, h] using this
        · simpa [forwardEvents, h, hs] using this

/-- A `WebSocketDisconnect` raised while sending chunk `k` sets the signal and
breaks out: the iteration ends with a fresh unset Event, only the user turn
appended, and only the chunks before `k` delivered. -/
theorem serverStep_message_sendfail (uuidS : ℕ → String) (clock : ℕ → ℚ)
    (s : ConnState) (text : String) (sidOpt : Option String)
    (scen : StreamScenario) (k : ℕ)
    (hk : scen.sendFailAt = some k)
    (hklen : k < (msgRun uuidS clock s text sidOpt scen).1.length) :
    serverStep uuidS clock s (.message text sidOpt scen)
      = ({ s with db := msgDb2 uuidS clock s text sidOpt,
                  uuidCtr := resolvedUuidCtr s sidOpt + 1, clk := s.clk + 1,
                  cancelGen := s.freshGen, cancelSet := false,
                  freshGen := s.freshGen + 1 },
         .start (msgSid uuidS s sidOpt) (msgUser uuidS clock s text sidOpt).id
           :: ((msgRun uuidS clock s text sidOpt scen).1.take k).map .chunk) := by
  simp [serverStep, hk, hklen]

/-- C5: (bridge) the generator polls the cancellation signal before yielding
each delta; once the signal is set it yields nothing further and, if events
remain, returns within one backend-event boundary.  (session) a stream whose
signal was set mid-stream — the in-session setter is the chunk-send
disconnect — produces no `done` frame, and persists no assistant message:
the store after the iteration is exactly the user-turn append, whose last
row has role `"user"` and which grew by exactly one row. -/
theorem c5_cancellation (uuidS : ℕ → String) (clock : ℕ → ℚ) :
    (∀ (n t : ℕ) (es : List (Option String)),
        (forwardEvents (fun i => decide (n ≤ i)) t es).1
          = visibleDeltas (es.take (n - t)))
    ∧ (∀ (n t : ℕ) (es : List (Option String)), n - t < es.length →
        (forwardEvents (fun i => decide (n ≤ i)) t es).2.2 = true)
    ∧ (∀ (s : ConnState) (text : String) (sidOpt : Option String)
        (scen : StreamScenario) (k : ℕ),
        scen.sendFailAt = some k →
        k < (msgRun uuidS clock s text sidOpt scen).1.length →
        (∀ m c, OutFrame.done m c
            ∉ (serverStep uuidS clock s (.message text sidOpt scen)).2)
        ∧ (serverStep uuidS clock s (.message text sidOpt scen)).1.db
            = msgDb2 uuidS clock s text sidOpt
        ∧ ((msgDb2 uuidS clock s text sidOpt).messages.getLast?).map Message.role
            = some "user"
        ∧ (msgDb2 uuidS clock s text sidOpt).messages.length
            = s.db.messages.length + 1) := by
  refine ⟨fun n t es => forwardEvents_threshold_deltas n es t,
          fun n t es h => forwardEvents_threshold_stops n es t h,
          fun s text sidOpt scen k hk hklen => ?_⟩
  have hstep := serverStep_message_sendfail uuidS clock s text sidOpt scen k hk hklen
  refine ⟨?_, by rw [hstep], ?_, ?_⟩
  · intro m c hmem
    rw [hstep] at hmem
    rcases List.mem_cons.mp hmem with h | h
    · exact absurd h (by simp)
    · obtain ⟨d, _, h2⟩ := List.mem_map.mp h
      exact absurd h2 (by simp)
  · unfold msgDb2 DBStore.append
    rw [← List.concat_eq_append, List.getLast?_concat]
    rfl
  · unfold msgDb2 DBStore.append
    simp [(get_or_create_messages s.db sidOpt (uuidS s.uuidCtr)).1]

/-- C5 witness: the threshold signal set from poll 2 on the three-event
backend, and the concrete send-failure scenario `scenFail1`. -/
theorem c5_witness :
    (forwardEvents (fun i => decide (2 ≤ i)) 0 [some "b", none, some "c"]).1
      = visibleDeltas ([some "b", none, some "c"].take (2 - 0))
    ∧ ((∀ m c, OutFrame.done m c
          ∉ (serverStep uuidS0 clock0 (connInit DB.empty)
              (.message "hi" (some "s") scenFail1)).2)
      ∧ (serverStep uuidS0 clock0 (connInit DB.empty)
            (.message "hi" (some "s") scenFail1)).1.db
          = msgDb2 uuidS0 clock0 (connInit DB.empty) "hi" (some "s")
      ∧ ((msgDb2 uuidS0 clock0 (connInit DB.empty) "hi" (some "s")).messages.getLast?).map
            Message.role
          = some "user"
      ∧ (msgDb2 uuidS0 clock0 (connInit DB.empty) "hi" (some "s")).messages.length
          = (connInit DB.empty).db.messages.length + 1) :=
  ⟨(c5_cancellation uuidS0 clock0).1 2 0 [some "b", none, some "c"],
   (c5_cancellation uuidS0 clock0).2.2 (connInit DB.empty) "hi" (some "s")
     scenFail1 1 rfl (by decide)⟩

/-! ## C10 — stream frames carry fresh uuids; the store assigns integer ids -/

/-- No digit character is a hyphen. -/
theorem digitChar_ne_hyphen (n : ℕ) : Nat.digitChar n ≠ '-' := by
  rcases Nat.lt_or_ge n 16 with h | h
  · interval_cases n <;> decide
  · have h16 : Nat.digitChar n = '*' := by
      unfold Nat.digitChar
      iterate 16 rw [if_neg (by omega)]
    rw [h16]
    decide

/-- `Nat.toDigitsCore` only ever prepends digit characters. -/
theorem toDigitsCore_ne_hyphen (b : ℕ) : ∀ (fuel n : ℕ) (ds : List Char),
    (∀ c ∈ ds, c ≠ '-') → ∀ c ∈ Nat.toDigitsCore b fuel n ds, c ≠ '-' := by
  intro fuel
  induction fuel with
  | zero => intro n ds h c hc; exact h c hc
  | succ fuel ih =>
    intro n ds h c hc
    have hcons : ∀ c' ∈ Nat.digitChar (n % b) :: ds, c' ≠ '-' := by
      intro c' hc'
      rcases List.mem_cons.mp hc' with h1 | h1
      · exact h1 ▸ digitChar_ne_hyphen (n % b)
      · exact h c' h1
    simp only [Nat.toDigitsCore] at hc
    split at hc
    · exact hcons c hc
    · exact ih _ _ hcons c hc

/-- The decimal rendering `str(k)` of a store id contains no hyphen. -/
theorem hyphen_not_mem_toString_nat (k : ℕ) : '-' ∉ (toString k).data := by
  have hd : (toString k).data = Nat.toDigitsCore 10 (k + 1) k [] := rfl
  rw [hd]
  intro hmem
  exact toDigitsCore_ne_hyphen 10 (k + 1) k []
    (fun c hc => absurd hc (List.not_mem_nil c)) '-' hmem rfl

/-- A canonical uuid string (it contains hyphens) is never the decimal string
of a store id. -/
theorem uuid_ne_nat_string (uuidS : ℕ → String)
    (hu : ∀ n, '-' ∈ (uuidS n).data) (n k : ℕ) : uuidS n ≠ toString k := by
  intro h
  have hmem := hu n
  rw [h] at hmem
  exact hyphen_not_mem_toString_nat k hmem

/-- The happy path of a `message` frame: stream completes un-cancelled, the
assistant turn is persisted and `done` emitted. -/
theorem serverStep_message_done (uuidS : ℕ → String) (clock : ℕ → ℚ)
    (s : ConnState) (text : String) (sidOpt : Option String)
    (scen : StreamScenario) (ds : List String)
    (hc : s.cancelSet = false) (hf : scen.sendFailAt = none)
    (hrun : msgRun uuidS clock s text sidOpt scen = (ds, .completed)) :
    serverStep uuidS clock s (.message text sidOpt scen)
      = ({ s with db := DBStore.append (msgDb2 uuidS clock s text sidOpt)
                    (msgSid uuidS s sidOpt)
                    (make_assistant_msg (uuidS (resolvedUuidCtr s sidOpt + 1))
                      (clock (s.clk + 1)) (String.join ds)),
                  uuidCtr := resolvedUuidCtr s sidOpt + 2, clk := s.clk + 2 },
         .start (msgSid uuidS s sidOpt) (msgUser uuidS clock s text sidOpt).id
           :: ds.map .chunk
           ++ [.done (make_assistant_msg (uuidS (resolvedUuidCtr s sidOpt + 1))
                (clock (s.clk + 1)) (String.join ds)) ds.length]) := by
  simp [serverStep, hrun, hf, hc]

/-- Every id the chronological read returns is `str(row.id)` for a store row. -/
theorem history_id_is_nat_string {db : DB} {sid : String} {lim : ℕ}
    {c : ChatMessage} (hc : c ∈ DBStore.history db sid lim) :
    ∃ k : ℕ, c.id = toString k := by
  unfold DBStore.history at hc
  obtain ⟨r, _, rfl⟩ := List.mem_map.mp hc
  exact ⟨r.id, rfl⟩

/-- C10: the `message_id` of the `start` frame and the `message.id` of the
`done` frame are freshly drawn uuid strings; the store discards the incoming
ChatMessage's uuid entirely and assigns its own autoincrement integer ids to
the two persisted turns; and every id the history interface later returns is
the decimal string of a store id, hence different from every uuid the client
saw in the stream frames. -/
theorem c10_fresh_uuids (uuidS : ℕ → String) (clock : ℕ → ℚ) (s : ConnState)
    (text : String) (sidOpt : Option String) (scen : StreamScenario)
    (ds : List String) (lim : ℕ)
    (hu : ∀ n, '-' ∈ (uuidS n).data)
    (hc : s.cancelSet = false) (hf : scen.sendFailAt = none)
    (hrun : msgRun uuidS clock s text sidOpt scen = (ds, .completed)) :
    (serverStep uuidS clock s (.message text sidOpt scen)).2
      = .start (msgSid uuidS s sidOpt) (uuidS (resolvedUuidCtr s sidOpt))
          :: ds.map .chunk
          ++ [.done (make_assistant_msg (uuidS (resolvedUuidCtr s sidOpt + 1))
               (clock (s.clk + 1)) (String.join ds)) ds.length]
    ∧ (∀ (db' : DB) (sid' : String) (m : ChatMessage) (x : String),
        DBStore.append db' sid' { m with id := x } = DBStore.append db' sid' m)
    ∧ (serverStep uuidS clock s (.message text sidOpt scen)).1.db.messages.map
          Message.id
        = s.db.messages.map Message.id ++ [s.db.nextId, s.db.nextId + 1]
    ∧ (∀ (sid'' : String) (c : ChatMessage),
        c ∈ DBStore.history
              (serverStep uuidS clock s (.message text sidOpt scen)).1.db sid'' lim →
        (∃ k : ℕ, c.id = toString k) ∧ ∀ n, c.id ≠ uuidS n) := by
  have hstep := serverStep_message_done uuidS clock s text sidOpt scen ds hc hf hrun
  refine ⟨by rw [hstep]; rfl, fun db' sid' m x => rfl, ?_, ?_⟩
  · rw [hstep]
    show (DBStore.append (msgDb2 uuidS clock s text sidOpt) _ _).messages.map _ = _
    unfold msgDb2 DBStore.append
    simp [(get_or_create_messages s.db sidOpt (uuidS s.uuidCtr)).1,
          (get_or_create_messages s.db sidOpt (uuidS s.uuidCtr)).2]
  · intro sid'' c hcmem
    obtain ⟨k, hk⟩ := history_id_is_nat_string hcmem
    refine ⟨⟨k, hk⟩, fun n h => ?_⟩
    rw [hk] at h
    exact uuid_ne_nat_string uuidS hu n k h.symm

/-- Every value of the `uuidHy` stream contains a hyphen, like every canonical
`str(uuid.uuid4())`. -/
theorem uuidHy_has_hyphen : ∀ n, '-' ∈ (uuidHy n).data := by
  intro n
  show '-' ∈ ("u-" ++ toString n).data
  rw [String.data_append]
  simp

/-- C10 witness: the theorem applied to the hyphenated uuid stream and the
concrete happy-path scenario on a fresh connection. -/
theorem c10_witness :
    (serverStep uuidHy clock0 (connInit DB.empty)
        (.message "hi" (some "s") scenOk)).2
      = .start (msgSid uuidHy (connInit DB.empty) (some "s"))
          (uuidHy (resolvedUuidCtr (connInit DB.empty) (some "s")))
          :: (["b", "c"] : List String).map .chunk
          ++ [.done (make_assistant_msg
                (uuidHy (resolvedUuidCtr (connInit DB.empty) (some "s") + 1))
                (clock0 ((connInit DB.empty).clk + 1))
                (String.join ["b", "c"])) (["b", "c"] : List String).length]
    ∧ (∀ (db' : DB) (sid' : String) (m : ChatMessage) (x : String),
        DBStore.append db' sid' { m with id := x } = DBStore.append db' sid' m)
    ∧ (serverStep uuidHy clock0 (connInit DB.empty)
          (.message "hi" (some "s") scenOk)).1.db.messages.map Message.id
        = (connInit DB.empty).db.messages.map Message.id
            ++ [(connInit DB.empty).db.nextId, (connInit DB.empty).db.nextId + 1]
    ∧ (∀ (sid'' : String) (c : ChatMessage),
        c ∈ DBStore.history
              (serverStep uuidHy clock0 (connInit DB.empty)
                (.message "hi" (some "s") scenOk)).1.db sid'' 10 →
        (∃ k : ℕ, c.id = toString k) ∧ ∀ n, c.id ≠ uuidHy n) :=
  c10_fresh_uuids uuidHy clock0 (connInit DB.empty) "hi" (some "s") scenOk
    ["b", "c"] 10 uuidHy_has_hyphen rfl rfl rfl

/-! ## C2 — lemmas for cursor pagination -/

/-- The UTC calendar date is monotone in the instant. -/
theorem utcDate_mono {a b : UTCDateTime} (h : a.epoch ≤ b.epoch) :
    a.utcDate ≤ b.utcDate := by
  unfold UTCDateTime.utcDate
  exact Int.floor_le_floor ((div_le_div_iff_of_pos_right (by norm_num)).mpr h)

/-- `getLast?` skips a head when the tail is non-empty. -/
theorem getLast?_cons_of_ne_nil {α : Type} (a : α) {l : List α} (h : l ≠ []) :
    (a :: l).getLast? = l.getLast? := by
  cases l with
  | nil => exact absurd rfl h
  | cons b t => exact List.getLast?_cons_cons

/-- In a strictly id-descending list the last element has the least id. -/
theorem desc_getLast?_min : ∀ (l : List Message) (x : Message),
    l.Pairwise (fun a b => b.id < a.id) → l.getLast? = some x →
    ∀ r ∈ l, x.id ≤ r.id := by
  intro l
  induction l with
  | nil => intro x _ h; cases h
  | cons a l ih =>
    intro x hp hlast r hr
    cases l with
    | nil =>
      simp only [List.getLast?_singleton, Option.some.injEq] at hlast
      rcases List.mem_singleton.mp hr with rfl
      rw [hlast]
    | cons b t =>
      rw [List.getLast?_cons_cons] at hlast
      have hx := ih x (List.pairwise_cons.mp hp).2 hlast
      rcases List.mem_cons.mp hr with rfl | h
      · have hxmem : x ∈ b :: t := List.mem_of_getLast?_eq_some hlast
        exact le_of_lt ((List.pairwise_cons.mp hp).1 x hxmem)
      · exact hx r h

/-- One `setdefault(day, []).append(rec)` on a groups dict whose keys strictly
decrease and all dominate `day`: the flattened records gain exactly `rec` at
the end, the keys stay strictly decreasing, and the key set gains at most
`day`. -/
theorem groupsInsert_spec (day : ℤ) (rec : MessageRecord) :
    ∀ (gs : List (ℤ × List MessageRecord)),
      (gs.map Prod.fst).Pairwise (fun a b => b < a) →
      (∀ d ∈ gs.map Prod.fst, day ≤ d) →
      ((groupsInsert gs day rec).map Prod.snd).flatten
          = (gs.map Prod.snd).flatten ++ [rec]
      ∧ ((groupsInsert gs day rec).map Prod.fst).Pairwise (fun a b => b < a)
      ∧ (∀ d ∈ (groupsInsert gs day rec).map Prod.fst,
          d ∈ gs.map Prod.fst ∨ d = day) := by
  intro gs
  induction gs with
  | nil =>
    intro _ _
    refine ⟨by simp [groupsInsert], by simp [groupsInsert], by simp [groupsInsert]⟩
  | cons hd tl ih =>
    obtain ⟨d0, rs⟩ := hd
    intro hkeys hle
    by_cases hd0 : d0 = day
    · have htl : tl = [] := by
        cases tl with
        | nil => rfl
        | cons hd2 tl2 =>
          exfalso
          obtain ⟨d1, rs1⟩ := hd2
          have h1 : d1 < d0 :=
            (List.pairwise_cons.mp hkeys).1 d1 (by simp)
          have h2 : day ≤ d1 := hle d1 (by simp)
          omega
      subst htl
      refine ⟨by simp [groupsInsert, hd0], by simp [groupsInsert, hd0],
        by simp [groupsInsert, hd0]⟩
    · have hkeys' := (List.pairwise_cons.mp hkeys).2
      have hle' : ∀ d ∈ tl.map Prod.fst, day ≤ d := fun d hd => hle d (by simp [hd])
      obtain ⟨ih1, ih2, ih3⟩ := ih hkeys' hle'
      refine ⟨?_, ?_, ?_⟩
      · simp only [groupsInsert, if_neg hd0, List.map_cons, List.flatten_cons, ih1,
          List.append_assoc]
      · simp only [groupsInsert, if_neg hd0, List.map_cons]
        refine List.pairwise_cons.mpr ⟨?_, ih2⟩
        intro d hdmem
        rcases ih3 d hdmem with h | h
        · exact (List.pairwise_cons.mp hkeys).1 d h
        · subst h
          have hdle : d ≤ d0 := hle d0 (by simp)
          omega
      · intro d hdmem
        simp only [groupsInsert, if_neg hd0, List.map_cons, List.mem_cons] at hdmem
        rcases hdmem with rfl | h
        · exact Or.inl (by simp)
        · rcases ih3 d h with h2 | h2
          · exact Or.inl (by simp [h2])
          · exact Or.inr h2

/-- Folding rows (whose days never increase, and never exceed the existing
keys) into a groups dict appends their records, in row order, to the
flattened dict. -/
theorem buildGroups_flatten :
    ∀ (rows : List Message) (gs : List (ℤ × List MessageRecord)),
      rows.Pairwise (fun a b => b.created_at.utcDate ≤ a.created_at.utcDate) →
      (gs.map Prod.fst).Pairwise (fun a b => b < a) →
      (∀ r ∈ rows, ∀ d ∈ gs.map Prod.fst, r.created_at.utcDate ≤ d) →
      ((rows.foldl (fun g r => groupsInsert g r.created_at.utcDate r.toRecord) gs).map
          Prod.snd).flatten
        = (gs.map Prod.snd).flatten ++ rows.map Message.toRecord := by
  intro rows
  induction rows with
  | nil => intro gs _ _ _; simp
  | cons r rows ih =>
    intro gs hrows hkeys hlink
    obtain ⟨g1, g2, g3⟩ := groupsInsert_spec r.created_at.utcDate r.toRecord gs hkeys
      (fun d hd => hlink r (by simp) d hd)
    have hrows' := (List.pairwise_cons.mp hrows).2
    have hlink' : ∀ r' ∈ rows,
        ∀ d ∈ (groupsInsert gs r.created_at.utcDate r.toRecord).map Prod.fst,
        r'.created_at.utcDate ≤ d := by
      intro r' hr' d hd
      rcases g3 d hd with h | h
      · exact hlink r' (by simp [hr']) d h
      · subst h
        exact (List.pairwise_cons.mp hrows).1 r' hr'
    rw [List.foldl_cons, ih _ hrows' g2 hlink', g1, List.append_assoc]
    simp

/-- A page's emitted records are exactly its rows, in order, whenever the
rows' days never increase (which the DESC ordering guarantees). -/
theorem page_records_eq (rows : List Message)
    (hdays : rows.Pairwise (fun a b => b.created_at.utcDate ≤ a.created_at.utcDate)) :
    ((rows.foldl (fun g r => groupsInsert g r.created_at.utcDate r.toRecord)
        ([] : List (ℤ × List MessageRecord))).map Prod.snd).flatten
      = rows.map Message.toRecord := by
  simpa using buildGroups_flatten rows [] hdays (by simp) (by simp)

/-- Peeling one page off a ceiling division: `ceil(k/ps) = ceil((k-ps)/ps)+1`
for `k ≥ 1`, in the `(k + ps - 1) / ps` form. -/
theorem ceil_div_recurrence (k ps : ℕ) (hps : 0 < ps) (hk : 1 ≤ k) :
    (k + ps - 1) / ps = (k - ps + ps - 1) / ps + 1 := by
  have h1 : k + ps - 1 = (k - 1) + ps := by omega
  rw [h1, Nat.add_div_right _ hps]
  by_cases h : k ≤ ps
  · have h2 : k - ps = 0 := by omega
    rw [h2]
    have h3 : (k - 1) / ps = 0 := Nat.div_eq_of_lt (by omega)
    have h4 : (0 + ps - 1) / ps = 0 := Nat.div_eq_of_lt (by omega)
    omega
  · have h2 : k - ps + ps - 1 = (k - ps - 1) + ps := by omega
    rw [h2, Nat.add_div_right _ hps]
    have h3 : k - 1 = (k - ps - 1) + ps := by omega
    rw [h3, Nat.add_div_right _ hps]

/-- The cursor step: with strictly descending ids, filtering the whole sorted
list by `id < (last row of the current page).id` yields exactly the suffix
after the page — the `id` cursor agrees with positional paging. -/
theorem filter_lt_cursor (L : List Message) (m ps : ℕ) (last : Message)
    (HD : L.Pairwise (fun a b => b.id < a.id))
    (hlast : ((L.drop m).take ps).getLast? = some last) :
    L.filter (fun r => decide ((r.id : ℤ) < (last.id : ℤ))) = L.drop (m + ps) := by
  have hlastmem : last ∈ L.drop m :=
    List.take_subset _ _ (List.mem_of_getLast?_eq_some hlast)
  have HDsplit := List.pairwise_append.mp
    (show ((L.take m) ++ (L.drop m)).Pairwise (fun a b => b.id < a.id) by
      rw [List.take_append_drop]; exact HD)
  have hD : (L.drop m).Pairwise (fun a b => b.id < a.id) := HDsplit.2.1
  have h2 : (L.drop m).filter (fun r => decide ((r.id : ℤ) < (last.id : ℤ)))
      = (L.drop m).drop ps := by
    have hsplit2 := List.pairwise_append.mp
      (show (((L.drop m).take ps) ++ ((L.drop m).drop ps)).Pairwise
          (fun a b => b.id < a.id) by
        rw [List.take_append_drop]; exact hD)
    have h2a : ((L.drop m).take ps).filter
        (fun r => decide ((r.id : ℤ) < (last.id : ℤ))) = [] := by
      rw [List.filter_eq_nil_iff]
      intro a ha
      have hmin : last.id ≤ a.id :=
        desc_getLast?_min _ last (hD.sublist (List.take_sublist ps (L.drop m)))
          hlast a ha
      simp only [decide_eq_true_eq, not_lt]
      exact_mod_cast hmin
    have h2b : ((L.drop m).drop ps).filter
        (fun r => decide ((r.id : ℤ) < (last.id : ℤ))) = (L.drop m).drop ps := by
      rw [List.filter_eq_self]
      intro a ha
      have : a.id < last.id :=
        hsplit2.2.2 last (List.mem_of_getLast?_eq_some hlast) a ha
      simp only [decide_eq_true_eq]
      exact_mod_cast this
    conv_lhs => rw [← List.take_append_drop ps (L.drop m)]
    rw [List.filter_append, h2a, h2b, List.nil_append]
  have h1 : (L.take m).filter (fun r => decide ((r.id : ℤ) < (last.id : ℤ))) = [] := by
    rw [List.filter_eq_nil_iff]
    intro a ha
    have : last.id < a.id := HDsplit.2.2 a ha last hlastmem
    simp only [decide_eq_true_eq, not_lt]
    exact_mod_cast le_of_lt this
  conv_lhs => rw [← List.take_append_drop m L]
  rw [List.filter_append, h1, h2, List.nil_append, List.drop_drop]

/-- The master walk lemma: from any suffix `L.drop m` of the DESC-sorted
conversation (reached by the current cursor), the cursor-fed walk emits the
remaining records exactly once in order, uses `ceil(remaining/ps)` non-empty
pages, ends on the page with a `null` cursor, and its cursors are the last
ids of the pages, strictly decreasing. -/
theorem paginateAux_spec (db : DB) (sid : String) (ps : ℕ) (L : List Message)
    (hps : 0 < ps)
    (hL : (db.convOf sid).insertionSort rowGeDesc = L)
    (HD : L.Pairwise (fun a b => b.id < a.id))
    (HC : L.Pairwise (fun a b => b.created_at.epoch ≤ a.created_at.epoch))
    (HP : ∀ r ∈ L, 1 ≤ r.id) :
    ∀ (fuel m : ℕ) (cur : Option ℤ),
      DBStore.queryDesc db sid cur = L.drop m →
      L.length - m < fuel →
      ((paginateAux db sid ps fuel cur).map DayPage.records).flatten
          = (L.drop m).map Message.toRecord
      ∧ ((paginateAux db sid ps fuel cur).filter
            (fun p => p.next_cursor.isSome)).length
          = ((L.length - m) + ps - 1) / ps
      ∧ (∃ lastPage, (paginateAux db sid ps fuel cur).getLast? = some lastPage
            ∧ lastPage.next_cursor = none)
      ∧ ((paginateAux db sid ps fuel cur).filterMap DayPage.next_cursor).Pairwise
            (fun a b => b < a)
      ∧ (∀ x ∈ (paginateAux db sid ps fuel cur).filterMap DayPage.next_cursor,
            ∃ r ∈ L.drop m, x = r.id)
      ∧ (∀ p ∈ paginateAux db sid ps fuel cur,
            p.next_cursor.isSome = true ↔ p.records ≠ []) := by
  intro fuel
  induction fuel with
  | zero => intro m cur _ hfuel; exact absurd hfuel (Nat.not_lt_zero _)
  | succ fuel ih =>
    intro m cur hq hfuel
    have hrows : DBStore.pageRows db sid cur ps = (L.drop m).take ps := by
      unfold DBStore.pageRows
      rw [hq]
    by_cases hdrop : L.drop m = []
    · have hmlen : L.length ≤ m := List.drop_eq_nil_iff.mp hdrop
      have hempty : DBStore.history_grouped_by_day db sid cur ps
          = { groups := [], next_cursor := none } := by
        unfold DBStore.history_grouped_by_day
        rw [hrows, hdrop]
        simp
      have hpag : paginateAux db sid ps (fuel + 1) cur
          = [{ groups := [], next_cursor := none }] := by
        simp only [paginateAux, hempty]
      rw [hpag, hdrop]
      have hsub : L.length - m = 0 := by omega
      refine ⟨by simp [DayPage.records], ?_, ⟨_, rfl, rfl⟩, by simp, by simp, ?_⟩
      · simp only [hsub, List.filter, Option.isSome_none, List.length_nil]
        exact (Nat.div_eq_of_lt (by omega)).symm
      · intro p hp
        rcases List.mem_singleton.mp hp with rfl
        simp [DayPage.records]
    · -- non-empty page
      have hmlen : m < L.length := by
        by_contra h
        exact hdrop (List.drop_eq_nil_iff.mpr (by omega))
      have hne : (L.drop m).take ps ≠ [] := by
        intro h
        rcases List.take_eq_nil_iff.mp h with h | h
        · omega
        · exact hdrop h
      obtain ⟨last, hlast⟩ : ∃ x, ((L.drop m).take ps).getLast? = some x := by
        cases h : ((L.drop m).take ps).getLast? with
        | some x => exact ⟨x, rfl⟩
        | none => exact absurd (List.getLast?_eq_none_iff.mp h) hne
      have hlastmem : last ∈ (L.drop m).take ps := List.mem_of_getLast?_eq_some hlast
      have hlastD : last ∈ L.drop m := List.take_subset _ _ hlastmem
      have hlastL : last ∈ L := List.drop_subset _ _ hlastD
      have hc1 : 1 ≤ last.id := HP last hlastL
      have hcne : ((last.id : ℤ)) ≠ 0 := by
        have : (0 : ℤ) < (last.id : ℤ) := by exact_mod_cast hc1
        omega
      have hpage : DBStore.history_grouped_by_day db sid cur ps
          = { groups := ((L.drop m).take ps).foldl
                (fun gs r => groupsInsert gs r.created_at.utcDate r.toRecord) [],
              next_cursor := some last.id } := by
        unfold DBStore.history_grouped_by_day
        rw [hrows]
        dsimp only
        rw [hlast]
        rfl
      have hq' : DBStore.queryDesc db sid (some ((last.id : ℤ))) = L.drop (m + ps) := by
        unfold DBStore.queryDesc
        rw [hL]
        dsimp only
        rw [if_pos hcne]
        exact filter_lt_cursor L m ps last HD hlast
      have hfuel' : L.length - (m + ps) < fuel := by omega
      obtain ⟨IH1, IH2, IH3, IH4, IH5, IH6⟩ :=
        ih (m + ps) (some ((last.id : ℤ))) hq' hfuel'
      have hstep : paginateAux db sid ps (fuel + 1) cur
          = { groups := ((L.drop m).take ps).foldl
                (fun gs r => groupsInsert gs r.created_at.utcDate r.toRecord) [],
              next_cursor := some last.id }
              :: paginateAux db sid ps fuel (some ((last.id : ℤ))) := by
        simp only [paginateAux, hpage]
      have hdays : ((L.drop m).take ps).Pairwise
          (fun a b => b.created_at.utcDate ≤ a.created_at.utcDate) := by
        have hsub : List.Sublist ((L.drop m).take ps) L :=
          (List.take_sublist ps (L.drop m)).trans (List.drop_sublist m L)
        exact (HC.sublist hsub).imp (fun h => utcDate_mono h)
      have hrecords : DayPage.records
          { groups := ((L.drop m).take ps).foldl
              (fun gs r => groupsInsert gs r.created_at.utcDate r.toRecord) [],
            next_cursor := some last.id }
          = ((L.drop m).take ps).map Message.toRecord := by
        unfold DayPage.records
        exact page_records_eq _ hdays
      have hDdrop : (L.drop m).Pairwise (fun a b => b.id < a.id) :=
        HD.sublist (List.drop_sublist m L)
      have hsplitD := List.pairwise_append.mp
        (show (((L.drop m).take ps) ++ ((L.drop m).drop ps)).Pairwise
            (fun a b => b.id < a.id) by
          rw [List.take_append_drop]; exact hDdrop)
      have hdropdrop : L.drop (m + ps) = (L.drop m).drop ps :=
        (List.drop_drop ps m L).symm
      refine ⟨?_, ?_, ?_, ?_, ?_, ?_⟩
      · rw [hstep]
        simp only [List.map_cons, List.flatten_cons]
        rw [hrecords, IH1, ← List.map_append, hdropdrop, List.take_append_drop]
      · rw [hstep]
        have hk : 1 ≤ L.length - m := by omega
        have hsub2 : L.length - (m + ps) = (L.length - m) - ps := by omega
        simp only [List.filter, Option.isSome_some, List.length_cons]
        rw [IH2, hsub2, ← ceil_div_recurrence (L.length - m) ps hps hk]
      · obtain ⟨lastPage, h3a, h3b⟩ := IH3
        have htailne : paginateAux db sid ps fuel (some ((last.id : ℤ))) ≠ [] := by
          intro h
          rw [h] at h3a
          cases h3a
        refine ⟨lastPage, ?_, h3b⟩
        rw [hstep, getLast?_cons_of_ne_nil _ htailne, h3a]
      · rw [hstep]
        simp only [List.filterMap_cons]
        refine List.pairwise_cons.mpr ⟨?_, IH4⟩
        intro x hx
        obtain ⟨r, hr, rfl⟩ := IH5 x hx
        rw [hdropdrop] at hr
        exact hsplitD.2.2 last hlastmem r hr
      · rw [hstep]
        simp only [List.filterMap_cons]
        intro x hx
        rcases List.mem_cons.mp hx with rfl | hx
        · exact ⟨last, hlastD, rfl⟩
        · obtain ⟨r, hr, rfl⟩ := IH5 x hx
          rw [hdropdrop] at hr
          exact ⟨r, List.drop_subset _ _ hr, rfl⟩
      · rw [hstep]
        intro p hp
        rcases List.mem_cons.mp hp with rfl | hp
        · simp only [Option.isSome_some, true_iff, hrecords]
          intro h
          exact hne (List.map_eq_nil_iff.mp h)
        · exact IH6 p hp

/-- C2 (counterexample): conversation `"s"` of `exC2` holds two messages, but
message id 2 was appended with an older timestamp than id 1, so the DESC
ordering puts id 1 (the newer `created_at`) first while the cursor filters on
`id`.  The walk — no cursor, then each `next_cursor` fed back — visits only
message 1 and terminates: message 2 is skipped, refuting "visits every
message of the conversation exactly once" (with page_size 1 it should have
used 2 non-empty pages and visited both). -/
theorem c2_counterexample :
    ((paginate exC2 "s" 1).map DayPage.records).flatten.map MessageRecord.id = [1]
    ∧ exC2.messages.map Message.id = [1, 2]
    ∧ (exC2.convOf "s").length = 2 :=
  ⟨rfl, rfl, rfl⟩

/-- C2 (amended): provided the conversation's log order agrees with the
`(created_at, id)` order — ids strictly increase and `created_at` never
decreases along the log, as holds when appends carry non-decreasing
timestamps — starting with no cursor and feeding each page's `next_cursor`
back as `before_id` visits every message exactly once (the concatenated page
records are a permutation of the conversation's records; in fact they come
out newest-to-oldest), uses exactly `ceil(total / page_size)` non-empty
pages, terminates with a `null` cursor on the final page, and the cursor
strictly decreases across the non-empty pages. -/
theorem c2_amended (db : DB) (sid : String) (ps : ℕ)
    (hps : 0 < ps)
    (halign : (db.convOf sid).Pairwise
        (fun a b => a.id < b.id ∧ a.created_at.epoch ≤ b.created_at.epoch))
    (hpos : ∀ r ∈ db.convOf sid, 1 ≤ r.id) :
    ((paginate db sid ps).map DayPage.records).flatten.Perm
        ((db.convOf sid).map Message.toRecord)
    ∧ ((paginate db sid ps).filter (fun p => p.next_cursor.isSome)).length
        = ((db.convOf sid).length + ps - 1) / ps
    ∧ (∃ lastPage, (paginate db sid ps).getLast? = some lastPage
          ∧ lastPage.next_cursor = none)
    ∧ ((paginate db sid ps).filterMap DayPage.next_cursor).Pairwise
          (fun a b => b < a)
    ∧ (∀ p ∈ paginate db sid ps, p.next_cursor.isSome = true ↔ p.records ≠ []) := by
  have hperm : ((db.convOf sid).insertionSort rowGeDesc).Perm (db.convOf sid) :=
    List.perm_insertionSort _ _
  have hsorted : ((db.convOf sid).insertionSort rowGeDesc).Pairwise rowGeDesc :=
    List.sorted_insertionSort _ _
  have hforall : ∀ x ∈ db.convOf sid, ∀ y ∈ db.convOf sid, x ≠ y →
      ((x.id < y.id ∧ x.created_at.epoch ≤ y.created_at.epoch)
        ∨ (y.id < x.id ∧ y.created_at.epoch ≤ x.created_at.epoch)) := by
    intro x hx y hy hne
    have hsymm : Symmetric (fun x y : Message =>
        (x.id < y.id ∧ x.created_at.epoch ≤ y.created_at.epoch)
        ∨ (y.id < x.id ∧ y.created_at.epoch ≤ x.created_at.epoch)) := by
      intro a b h
      tauto
    exact List.Pairwise.forall hsymm (halign.imp (fun h => Or.inl h)) hx hy hne
  have hnodupC : (db.convOf sid).Pairwise (fun a b => a ≠ b) := by
    refine halign.imp ?_
    intro a b h heq
    rw [heq] at h
    exact Nat.lt_irrefl _ h.1
  have hnodupL : ((db.convOf sid).insertionSort rowGeDesc).Pairwise
      (fun a b : Message => a ≠ b) :=
    (List.Perm.nodup_iff hperm).mpr hnodupC
  have HD : ((db.convOf sid).insertionSort rowGeDesc).Pairwise
      (fun a b => b.id < a.id) := by
    refine List.Pairwise.imp_of_mem ?_ (hsorted.and hnodupL)
    rintro a b ha hb ⟨hge, hne⟩
    have ha' := hperm.subset ha
    have hb' := hperm.subset hb
    rcases hforall a ha' b hb' hne with ⟨hid, hca⟩ | ⟨hid, _⟩
    · exfalso
      rcases hge with h | ⟨_, hle⟩
      · exact absurd hca (not_le.mpr h)
      · omega
    · exact hid
  have HC : ((db.convOf sid).insertionSort rowGeDesc).Pairwise
      (fun a b => b.created_at.epoch ≤ a.created_at.epoch) :=
    hsorted.imp (fun h => h.elim le_of_lt (fun h2 => le_of_eq h2.1))
  have HP : ∀ r ∈ (db.convOf sid).insertionSort rowGeDesc, 1 ≤ r.id :=
    fun r hr => hpos r (hperm.subset hr)
  have hq0 : DBStore.queryDesc db sid none
      = ((db.convOf sid).insertionSort rowGeDesc).drop 0 := by
    rw [List.drop_zero]
    rfl
  have hlen : ((db.convOf sid).insertionSort rowGeDesc).length
      = (db.convOf sid).length := List.length_insertionSort _ _
  have hfuel0 : ((db.convOf sid).insertionSort rowGeDesc).length - 0
      < db.messages.length + 1 := by
    have h2 : (db.convOf sid).length ≤ db.messages.length :=
      List.length_filter_le _ _
    omega
  obtain ⟨P1, P2, P3, P4, _, P6⟩ :=
    paginateAux_spec db sid ps ((db.convOf sid).insertionSort rowGeDesc) hps rfl
      HD HC HP (db.messages.length + 1) 0 none hq0 hfuel0
  rw [List.drop_zero] at P1
  rw [Nat.sub_zero, hlen] at P2
  exact ⟨P1 ▸ hperm.map Message.toRecord, P2, P3, P4, P6⟩

/-- C2 witness: the amended theorem applied to the three-message, in-order
conversation `exC2w` with page size 2 (two non-empty pages: ids [3,2] then
[1], spanning two calendar days). -/
theorem c2_witness :
    ((exC2w.convOf "s").Pairwise
        (fun a b => a.id < b.id ∧ a.created_at.epoch ≤ b.created_at.epoch))
    ∧ (∀ r ∈ exC2w.convOf "s", 1 ≤ r.id)
    ∧ (((paginate exC2w "s" 2).map DayPage.records).flatten.Perm
          ((exC2w.convOf "s").map Message.toRecord)
      ∧ ((paginate exC2w "s" 2).filter (fun p => p.next_cursor.isSome)).length
          = ((exC2w.convOf "s").length + 2 - 1) / 2
      ∧ (∃ lastPage, (paginate exC2w "s" 2).getLast? = some lastPage
            ∧ lastPage.next_cursor = none)
      ∧ ((paginate exC2w "s" 2).filterMap DayPage.next_cursor).Pairwise
            (fun a b => b < a)
      ∧ (∀ p ∈ paginate exC2w "s" 2,
            p.next_cursor.isSome = true ↔ p.records ≠ [])) :=
  ⟨by decide, by decide, c2_amended exC2w "s" 2 (by decide) (by decide) (by decide)⟩
